import Mathlib

/-!
Verification development for `tools/recon-neonatal-cortex.py`, the neonatal
cortical-surface reconstruction pipeline driver.

The script is a stage scheduler over file artifacts: each stage checks whether
its output file exists (and a `force` flag), invokes an external
surface-processing operation when needed, and deletes intermediate artifacts
according to a debug/retention level.  We embed the scheduler shallowly:

* `Artifact` enumerates the artifact roles resolved from the configuration
  (the concrete path strings are distinct per session, so roles stand in for
  paths); a filesystem state `FS` records which artifacts exist;
* `Event` records one invocation of an external operation (with the argument
  values the claims are about) or one `os.remove` call;
* each external operation either succeeds - creating its declared outputs -
  or raises, which aborts the session; an `Oracle` of booleans chooses the
  outcome of each potential invocation;
* `recon_neonatal_cortex` mirrors the control flow of the Python function of
  the same name (lines 89-234), threading the filesystem state and collecting
  the trace of events in order;
* the command-line layer (`normalizeArgs`, `mainReconParams`), the SLURM
  submission helper (`sbatch_result`, job-script round trip), the session
  token parsing, and the per-session driver loop of `main` are embedded
  separately below.
-/

set_option linter.unusedVariables false
set_option linter.unnecessarySeqFocus false

namespace ReconNeonatal

/-- Artifact roles resolved by `recon_neonatal_cortex` from the configuration
(lines 98-120 of the source).  Each role names one file path of a session. -/
inductive Artifact where
  | t1wImage
  | t2wImage
  | brainMask
  | wmMask
  | gmMask
  | regionsMask
  | corpusCallosumMask
  | subcortexMask
  | corticalHullDmap
  | ventriclesDmap
  | brainMesh
  | bsCbMesh
  | internalMesh
  | cerebrumMesh
  | rightCerebrumMesh
  | leftCerebrumMesh
  | whiteMesh
  | rightWhiteMesh
  | leftWhiteMesh
  | pialMesh
  | rightPialMesh
  | leftPialMesh
  deriving DecidableEq

/-- Filesystem state of one session: which artifact files exist
(`os.path.isfile`). -/
abbrev FS := Artifact → Bool

/-- Update the existence bit of one artifact. -/
def setA (s : FS) (a : Artifact) (b : Bool) : FS :=
  fun x => if x = a then b else s x

/-- Hemisphere selector of `recon_cortical_surface`. -/
inductive Hemisphere where
  | right
  | left
  deriving DecidableEq

/-- One observable action of the scheduler: an invocation of an external
surface-processing operation (recording the argument values the claims
mention) or an `os.remove` of an intermediate artifact. -/
inductive Event where
  | reconBrainSurface (mask : Artifact)
  | reconBsCbSurface (regions : Artifact)
  | reconCorticalSurface (hemi : Hemisphere) (ccMask : Option Artifact)
  | joinCorticalSurfaces (bsCbMergeMesh : Option Artifact) (check : Bool)
  | reconWhiteSurface (t1w : Option Artifact) (bsCbGuideMesh : Option Artifact) (check : Bool)
  | splitSurfaces (joined rightName leftName : Artifact)
  | reconPialSurface (bsCbGuideMesh : Option Artifact) (outsideWhite : Bool) (check : Bool)
  | removeFile (a : Artifact)
  deriving DecidableEq

/-- Outcome chooser for the external operations: each field tells whether the
corresponding operation, if invoked, runs to completion (`true`) or raises
(`false`).  The external operations are opaque collaborators; on success they
produce exactly their declared output files. -/
structure Oracle where
  brainOk : Bool
  bsCbOk : Bool
  rightCorticalOk : Bool
  leftCorticalOk : Bool
  joinOk : Bool
  whiteOk : Bool
  splitWhiteOk : Bool
  pialOk : Bool
  splitPialOk : Bool
  deriving DecidableEq

/-- The all-success oracle. -/
def allOk : Oracle := ⟨true, true, true, true, true, true, true, true, true⟩

/-- Keyword parameters of the Python function `recon_neonatal_cortex`
(line 89-94), in source order. -/
structure ReconParams where
  withBrainMesh : Bool
  withBsCbMesh : Bool
  withWhiteMesh : Bool
  withPialMesh : Bool
  pialOutsideWhiteSurface : Bool
  joinBsCbMesh : Bool
  cut : Bool
  force : Bool
  check : Bool
  deriving DecidableEq

/-- The Python defaults of `recon_neonatal_cortex`:
`with_brain_mesh=False, with_bs_cb_mesh=True, with_white_mesh=True,
with_pial_mesh=True, pial_outside_white_surface=False, join_bs_cb_mesh=False,
cut=True, force=False, check=True`. -/
def defaultReconParams : ReconParams :=
  ⟨false, true, true, true, false, false, true, false, true⟩

/-- Lines 124-125 and 133-138: `bs_cb_mesh` is `None` when
`with_bs_cb_mesh` is false; `bs_cb_mesh_1` (merged into the joined surface)
is `bs_cb_mesh` when `bs_cb_mesh and join_bs_cb_mesh`, else `None`. -/
def bsCbMesh1 (p : ReconParams) : Option Artifact :=
  if p.withBsCbMesh && p.joinBsCbMesh then some Artifact.bsCbMesh else none

/-- Lines 133-138: `bs_cb_mesh_2` (white/pial guide mesh) is `None` when
`bs_cb_mesh and join_bs_cb_mesh`, else `bs_cb_mesh` (itself `None` when
`with_bs_cb_mesh` is false). -/
def bsCbMesh2 (p : ReconParams) : Option Artifact :=
  if p.withBsCbMesh && p.joinBsCbMesh then none
  else if p.withBsCbMesh then some Artifact.bsCbMesh else none

/-- Lines 128-129: `t1w_image` is set to `None` when its file does not exist
on disk at function entry. -/
def t1wOption (s : FS) : Option Artifact :=
  if s Artifact.t1wImage then some Artifact.t1wImage else none

/-- Lines 130-131: `corpus_callosum_mask` is set to `None` when its file does
not exist on disk at function entry. -/
def ccOption (s : FS) : Option Artifact :=
  if s Artifact.corpusCallosumMask then some Artifact.corpusCallosumMask else none

/-- Effect of one event on the filesystem: a successful operation creates
exactly its declared outputs (`join_cortical_surfaces` also writes the
`internal_mesh` seam as a side output); `removeFile` deletes its target. -/
def applyEvent (s : FS) : Event → FS
  | Event.reconBrainSurface _ => setA s Artifact.brainMesh true
  | Event.reconBsCbSurface _ => setA s Artifact.bsCbMesh true
  | Event.reconCorticalSurface Hemisphere.right _ => setA s Artifact.rightCerebrumMesh true
  | Event.reconCorticalSurface Hemisphere.left _ => setA s Artifact.leftCerebrumMesh true
  | Event.joinCorticalSurfaces _ _ =>
      setA (setA s Artifact.cerebrumMesh true) Artifact.internalMesh true
  | Event.reconWhiteSurface _ _ _ => setA s Artifact.whiteMesh true
  | Event.splitSurfaces _ r l => setA (setA s r true) l true
  | Event.reconPialSurface _ _ _ => setA s Artifact.pialMesh true
  | Event.removeFile a => setA s a false

/-- A (partial) session run record: the events so far, with the filesystem
state reached.  A `Except.error` value is a run aborted by an exception. -/
abbrev St := List Event × FS

/-- Invoke one external operation: on success the event is recorded and its
outputs appear; on failure the invocation is recorded and the exception
propagates (state unchanged by the model's success-or-raise contract). -/
def invoke (okFlag : Bool) (e : Event) (s : FS) : Except St St :=
  if okFlag then Except.ok ([e], applyEvent s e)
  else Except.error ([e], s)

/-- Model of `os.remove`: deletes the file, or raises `FileNotFoundError`
when the file is missing (in which case nothing happens). -/
def removeF (a : Artifact) (s : FS) : Except St St :=
  if s a then Except.ok ([Event.removeFile a], setA s a false)
  else Except.error ([], s)

/-- A skipped piece of code: no events, state unchanged. -/
def skipStep (s : FS) : Except St St := Except.ok ([], s)

/-- The recurring source pattern `if gate: <call external operation>`:
invoke the operation when the skip condition does not hold. -/
def optInvoke (gate okFlag : Bool) (e : Event) (s : FS) : Except St St :=
  if gate then invoke okFlag e s else skipStep s

/-- Sequencing with exception propagation: run the first piece; if it did not
raise, run the continuation from the reached state and concatenate traces. -/
def seqRun (x : Except St St) (f : FS → Except St St) : Except St St :=
  match x with
  | Except.error r => Except.error r
  | Except.ok (tr, s) =>
    match f s with
    | Except.ok (tr2, s2) => Except.ok (tr ++ tr2, s2)
    | Except.error (tr2, s2) => Except.error (tr ++ tr2, s2)

/-- Lines 141-144: brain-boundary stage,
`if brain_mesh and (force or not os.path.isfile(brain_mesh))`. -/
def brainStage (p : ReconParams) (ork : Oracle) (s : FS) : Except St St :=
  optInvoke (p.withBrainMesh && (p.force || !(s Artifact.brainMesh)))
    ork.brainOk (Event.reconBrainSurface Artifact.brainMask) s

/-- Lines 147-150: brainstem+cerebellum stage,
`if bs_cb_mesh and (force or not os.path.isfile(bs_cb_mesh))`. -/
def bsCbStage (p : ReconParams) (ork : Oracle) (s : FS) : Except St St :=
  optInvoke (p.withBsCbMesh && (p.force || !(s Artifact.bsCbMesh)))
    ork.bsCbOk (Event.reconBsCbSurface Artifact.regionsMask) s

/-- Lines 157-186: the hemisphere-extraction and join block, guarded by
`if force or not os.path.isfile(cerebrum_mesh)`.  After a successful join the
two per-hemisphere meshes are removed when `neoctx.debug < 1`. -/
def hemiJoinBlock (p : ReconParams) (ork : Oracle) (cc : Option Artifact)
    (debug : Nat) (s : FS) : Except St St :=
  if p.force || !(s Artifact.cerebrumMesh) then
    seqRun
      (optInvoke (p.force || !(s Artifact.rightCerebrumMesh)) ork.rightCorticalOk
        (Event.reconCorticalSurface Hemisphere.right cc) s) (fun s1 =>
    seqRun
      (optInvoke (p.force || !(s1 Artifact.leftCerebrumMesh)) ork.leftCorticalOk
        (Event.reconCorticalSurface Hemisphere.left cc) s1) (fun s2 =>
    seqRun (invoke ork.joinOk (Event.joinCorticalSurfaces (bsCbMesh1 p) p.check) s2) (fun s3 =>
    if debug < 1 then
      seqRun (removeF Artifact.rightCerebrumMesh s3) (fun s4 =>
        removeF Artifact.leftCerebrumMesh s4)
    else skipStep s3)))
  else skipStep s

/-- Line 156: the hemisphere/join block only runs under
`if force or not os.path.isfile(white_mesh)`. -/
def hemiOuterStage (p : ReconParams) (ork : Oracle) (cc : Option Artifact)
    (debug : Nat) (s : FS) : Except St St :=
  if p.force || !(s Artifact.whiteMesh) then hemiJoinBlock p ork cc debug s
  else skipStep s

/-- Lines 189-202: white-surface fitting, guarded by
`if force or not os.path.isfile(white_mesh)`; after success the joined
`cerebrum_mesh` is removed when `neoctx.debug < 1`. -/
def whiteStage (p : ReconParams) (ork : Oracle) (t1w : Option Artifact)
    (debug : Nat) (s : FS) : Except St St :=
  if p.force || !(s Artifact.whiteMesh) then
    seqRun (invoke ork.whiteOk (Event.reconWhiteSurface t1w (bsCbMesh2 p) p.check) s) (fun s1 =>
      if debug < 1 then removeF Artifact.cerebrumMesh s1 else skipStep s1)
  else skipStep s

/-- Lines 205-213: medial cut of the white surface, guarded by
`if cut and white_mesh and (force or not isfile(right) or not isfile(left))`
(the `white_mesh` path string is always non-empty, hence truthy). -/
def cutWhiteStage (p : ReconParams) (ork : Oracle) (s : FS) : Except St St :=
  optInvoke
    (p.cut && (p.force || !(s Artifact.rightWhiteMesh) || !(s Artifact.leftWhiteMesh)))
    ork.splitWhiteOk
    (Event.splitSurfaces Artifact.whiteMesh Artifact.rightWhiteMesh Artifact.leftWhiteMesh) s

/-- Lines 216-223: pial-surface fitting, guarded by
`if pial_mesh and (force or not os.path.isfile(pial_mesh))` (`pial_mesh` is
`None` exactly when `with_pial_mesh` is false). -/
def pialStage (p : ReconParams) (ork : Oracle) (s : FS) : Except St St :=
  optInvoke (p.withPialMesh && (p.force || !(s Artifact.pialMesh))) ork.pialOk
    (Event.reconPialSurface (bsCbMesh2 p) p.pialOutsideWhiteSurface p.check) s

/-- Lines 226-234: medial cut of the pial surface, same policy as the white
cut, additionally requiring `pial_mesh` to be non-`None`. -/
def cutPialStage (p : ReconParams) (ork : Oracle) (s : FS) : Except St St :=
  optInvoke
    (p.cut && p.withPialMesh &&
      (p.force || !(s Artifact.rightPialMesh) || !(s Artifact.leftPialMesh)))
    ork.splitPialOk
    (Event.splitSurfaces Artifact.pialMesh Artifact.rightPialMesh Artifact.leftPialMesh) s

/-- Pial fitting followed by the pial medial cut (lines 216-234). -/
def pialPart (p : ReconParams) (ork : Oracle) (s : FS) : Except St St :=
  seqRun (pialStage p ork s) (cutPialStage p ork)

/-- White medial cut, then the pial stages (lines 205-234). -/
def cutWhitePart (p : ReconParams) (ork : Oracle) (s : FS) : Except St St :=
  seqRun (cutWhiteStage p ork s) (pialPart p ork)

/-- White-surface fitting and everything after it (lines 189-234). -/
def whitePart (p : ReconParams) (ork : Oracle) (debug : Nat) (s0 : FS)
    (s : FS) : Except St St :=
  seqRun (whiteStage p ork (t1wOption s0) debug s) (cutWhitePart p ork)

/-- Line 153: the whole inner/outer cortical-surface section, guarded by
`if with_white_mesh or with_pial_mesh`. -/
def corticalPart (p : ReconParams) (ork : Oracle) (debug : Nat) (s0 : FS)
    (s : FS) : Except St St :=
  if p.withWhiteMesh || p.withPialMesh then
    seqRun (hemiOuterStage p ork (ccOption s0) debug s) (whitePart p ork debug s0)
  else skipStep s

/-- Brainstem+cerebellum stage and everything after it (lines 147-234). -/
def bsCbPart (p : ReconParams) (ork : Oracle) (debug : Nat) (s0 : FS)
    (s : FS) : Except St St :=
  seqRun (bsCbStage p ork s) (corticalPart p ork debug s0)

/-- The Pipeline Executor: Python function `recon_neonatal_cortex`
(lines 89-234), as the sequence of its stages.  `debug` is the global
`neoctx.debug` retention level.  The optional `t1w_image` and
`corpus_callosum_mask` inputs are dropped when missing on disk at entry
(lines 128-131). -/
def recon_neonatal_cortex (p : ReconParams) (ork : Oracle) (debug : Nat)
    (s0 : FS) : Except St St :=
  seqRun (brainStage p ork s0) (bsCbPart p ork debug s0)

/-- The event trace of a session run, whether or not it aborted. -/
def runTrace (p : ReconParams) (ork : Oracle) (debug : Nat) (s0 : FS) : List Event :=
  match recon_neonatal_cortex p ork debug s0 with
  | Except.ok (tr, _) => tr
  | Except.error (tr, _) => tr

/-- Whether a session run completed without raising. -/
def runOk (r : Except St St) : Bool :=
  match r with
  | Except.ok _ => true
  | Except.error _ => false

/-- Replay a trace of events over a filesystem state. -/
def replayFS (s : FS) (tr : List Event) : FS :=
  tr.foldl applyEvent s

/-! ## Command-line layer (`main`, lines 280-305 and 376-382) -/

/-- The boolean command-line flags of the script that are relevant to a
session run (lines 286-293): `--brain`, `--white`, `--pial`,
`--ensure-pial-is-outside-white-surface`, `--nocut` (stores `cut=False`),
`--nocheck` (stores `check=False`), `--force`.  `argparse` defaults:
`brain=white=pial=pialOutsideWhite=force=False`, `cut=check=True`. -/
structure CLIArgs where
  brain : Bool
  white : Bool
  pial : Bool
  pialOutsideWhite : Bool
  cut : Bool
  check : Bool
  force : Bool
  deriving DecidableEq

/-- The `argparse` default values of the seven flags. -/
def defaultCLIArgs : CLIArgs :=
  ⟨false, false, false, false, true, true, false⟩

/-- Lines 301-305: after parsing, if neither `--white` nor `--pial` was given
both are enabled; `--pial` implies `--white`. -/
def normalizeArgs (a : CLIArgs) : CLIArgs :=
  if !a.white && !a.pial then { a with white := true, pial := true }
  else if a.pial then { a with white := true }
  else a

/-- The keyword arguments `main` passes to `recon_neonatal_cortex` in the
local (in-process) path, lines 376-382: `with_brain_mesh=args.brain`,
`with_white_mesh=args.white`, `with_pial_mesh=args.pial`,
`pial_outside_white_surface=args.pial_outside_white`, `check=args.check`;
every other keyword (`with_bs_cb_mesh`, `join_bs_cb_mesh`, `cut`, `force`)
is left at its Python default. -/
def mainReconParams (a : CLIArgs) : ReconParams :=
  ⟨a.brain, true, a.white, a.pial, a.pialOutsideWhite, false, true, false, a.check⟩

/-- The option flags that the generated SLURM job script can contain
(lines 261-268 of `sbatch`). -/
inductive ScriptFlag where
  | brain
  | white
  | pial
  | force
  | nocut
  | nocheck
  | ensurePialOutsideWhite
  deriving DecidableEq

/-- Lines 261-268: the conditional flags appended to the job-script command
line, in source order. -/
def scriptFlagList (a : CLIArgs) : List ScriptFlag :=
  (if a.brain then [ScriptFlag.brain] else []) ++
  (if a.white then [ScriptFlag.white] else []) ++
  (if a.pial then [ScriptFlag.pial] else []) ++
  (if a.force then [ScriptFlag.force] else []) ++
  (if !a.cut then [ScriptFlag.nocut] else []) ++
  (if !a.check then [ScriptFlag.nocheck] else []) ++
  (if a.pialOutsideWhite then [ScriptFlag.ensurePialOutsideWhite] else [])

/-- Parsing semantics of the flags in the child invocation: start from the
`argparse` defaults and apply each `store_true` / `store_false` action. -/
def parseScriptFlags (fs : List ScriptFlag) : CLIArgs :=
  fs.foldl (fun a f =>
    match f with
    | ScriptFlag.brain => { a with brain := true }
    | ScriptFlag.white => { a with white := true }
    | ScriptFlag.pial => { a with pial := true }
    | ScriptFlag.force => { a with force := true }
    | ScriptFlag.nocut => { a with cut := false }
    | ScriptFlag.nocheck => { a with check := false }
    | ScriptFlag.ensurePialOutsideWhite => { a with pialOutsideWhite := true })
    defaultCLIArgs

/-- The job script built by `sbatch` (lines 259-268): it re-invokes this same
script with `--session={session}` (a single session token) and the
conditional flags of `scriptFlagList`; `--queue` is not forwarded, so the
child takes the local execution path. -/
structure ChildInvocation where
  sessions : List (List Char)
  flags : List ScriptFlag
  deriving DecidableEq

/-- The child invocation encoded in the job script for one session. -/
def jobScript (a : CLIArgs) (session : List Char) : ChildInvocation :=
  ⟨[session], scriptFlagList a⟩

/-! ## SLURM submission (`sbatch`, lines 241-274) -/

/-- The literal acknowledgement header matched by
`re.match('Submitted batch job ([0-9]+)', out)`. -/
def ackHeader : List Char := "Submitted batch job ".toList

/-- Decimal value of a non-empty string of decimal digits (Python `int`). -/
def digitsToNat (ds : List Char) : Nat :=
  ds.foldl (fun n c => 10 * n + (c.toNat - 48)) 0

/-- Lines 272-274 applied to a text acknowledgement: anchored prefix match;
on a match the greedy `([0-9]+)` group is the maximal digit run following
the header and the parsed job id is returned, otherwise the raw text. -/
def parseJobAck (out : List Char) : Sum Nat (List Char) :=
  if out.take ackHeader.length = ackHeader then
    let ds := (out.drop ackHeader.length).takeWhile (fun c => c.isDigit)
    if ds.isEmpty then Sum.inr out else Sum.inl (digitsToNat ds)
  else Sum.inr out

/-- A Python runtime value holding process output.  `communicate()` without
a text mode returns `str` under Python 2 but `bytes` under Python 3 - the
interpreter this script invokes itself with (`exec python3` in the job
script, line 259) and whose `str`/`bytes` split line 269 already caters to
by encoding the stdin payload. -/
inductive PyText where
  | str (s : List Char)
  | bytes (s : List Char)
  deriving DecidableEq

/-- The exceptions `sbatch` can raise: line 271's `Exception(err)` on a
non-zero exit, and the `TypeError` raised by line 272's
`re.match(str_pattern, out)` when `out` is a `bytes` object. -/
inductive SbatchRaise where
  | schedulerError (err : List Char)
  | typeError
  deriving DecidableEq

/-- Lines 269-274 of `sbatch`: raise carrying the stderr text when the
submission process exits non-zero; otherwise evaluate
`re.match('Submitted batch job ([0-9]+)', out)` and return the parsed
acknowledgement (lines 273-274).  The pattern is a `str`, so the match
succeeds only on text; on the `bytes` value that Python 3's
`communicate()` actually produces, `re.match` raises
`TypeError: cannot use a string pattern on a bytes-like object` before any
parsing. -/
def sbatch_result (returncode : Int) (out : PyText) (err : List Char) :
    Except SbatchRaise (Sum Nat (List Char)) :=
  if returncode ≠ 0 then Except.error (SbatchRaise.schedulerError err)
  else
    match out with
    | PyText.str s => Except.ok (parseJobAck s)
    | PyText.bytes _ => Except.error SbatchRaise.typeError

/-! ## Session token parsing (`main`, lines 344-352) -/

/-- Lines 344-352: each session token is matched against the anchored regex
`^(.*)-([^-]+)$`; the greedy `(.*)` makes the split happen at the last hyphen
that is followed by a non-empty hyphen-free tail.  On a match the groups are
`(subject_id, session_id)`; otherwise the whole token is the subject id and
the session id defaults to `"0"`. -/
def parseSessionToken (s : List Char) : List Char × List Char :=
  let rs := s.reverse
  let sessRev := rs.takeWhile (fun c => c ≠ '-')
  let restRev := rs.dropWhile (fun c => c ≠ '-')
  match restRev with
  | [] => (s, ['0'])
  | _ :: subjRev =>
    if sessRev.isEmpty then (s, ['0'])
    else (subjRev.reverse, sessRev.reverse)

/-! ## Run Controller (`main`, lines 343-394) -/

/-- The per-session loop of `main` in the local execution path: each session
is processed in order; an exception raised while processing a session is
caught, counted, and the loop continues.  A session here is its filesystem
state together with the outcome oracle of its external operations.  Returns
`(number of sessions processed, failed counter)`. -/
def runSessions (p : ReconParams) (debug : Nat)
    (sessions : List (Oracle × FS)) : Nat × Nat :=
  sessions.foldl (fun acc so =>
    match recon_neonatal_cortex p so.1 debug so.2 with
    | Except.ok _ => (acc.1 + 1, acc.2)
    | Except.error _ => (acc.1 + 1, acc.2 + 1)) (0, 0)

/-- Lines 393-394: `if failed > 0: sys.exit(1)`, else the process falls off
the end of the script and exits with status `0`. -/
def exitStatus (failed : Nat) : Nat :=
  if 0 < failed then 1 else 0

/-! ## Derived observers and concrete test data -/

/-- The trace of a (possibly aborted) run result. -/
def resTrace (r : Except St St) : List Event :=
  match r with
  | Except.ok (tr, _) => tr
  | Except.error (tr, _) => tr

/-- The filesystem state reached by a (possibly aborted) run result. -/
def resFS (r : Except St St) : FS :=
  match r with
  | Except.ok (_, s) => s
  | Except.error (_, s) => s

/-- Per-event dependency check: the join needs both per-hemisphere meshes on
disk, white-surface fitting needs the joined cerebrum mesh, pial-surface
fitting needs the white mesh. -/
def depOkEvent (s : FS) (e : Event) : Bool :=
  match e with
  | Event.joinCorticalSurfaces _ _ =>
      s Artifact.rightCerebrumMesh && s Artifact.leftCerebrumMesh
  | Event.reconWhiteSurface _ _ _ => s Artifact.cerebrumMesh
  | Event.reconPialSurface _ _ _ => s Artifact.whiteMesh
  | _ => true

/-- Check every event of a trace against a per-event predicate of the
filesystem state at the moment the event happens, replaying artifact effects
event by event. -/
def traceAll (chk : FS → Event → Bool) (s : FS) : List Event → Bool
  | [] => true
  | e :: rest => chk s e && traceAll chk (applyEvent s e) rest

/-- Check a trace against the data dependencies. -/
def depChecks (s : FS) (tr : List Event) : Bool :=
  traceAll depOkEvent s tr

/-- Per-event check of the optional-argument wiring: the join stage receives
`bs_cb_mesh_1` as its merge mesh, white/pial fitting receive `bs_cb_mesh_2`
as their guide mesh and white fitting the (possibly dropped) `t1w_image`,
and the hemisphere extractions receive the (possibly dropped)
`corpus_callosum_mask`. -/
def eventArgsOk (p : ReconParams) (s0 : FS) (e : Event) : Bool :=
  match e with
  | Event.joinCorticalSurfaces m _ => decide (m = bsCbMesh1 p)
  | Event.reconWhiteSurface t g _ =>
      decide (t = t1wOption s0) && decide (g = bsCbMesh2 p)
  | Event.reconPialSurface g _ _ => decide (g = bsCbMesh2 p)
  | Event.reconCorticalSurface _ c => decide (c = ccOption s0)
  | _ => true

/-- Combined per-event invariant: dependency check plus argument wiring. -/
def chkAll (p : ReconParams) (s0 : FS) (s : FS) (e : Event) : Bool :=
  depOkEvent s e && eventArgsOk p s0 e

/-- Whether an event is an `os.remove` of an intermediate file. -/
def isRemoveEvent (e : Event) : Bool :=
  match e with
  | Event.removeFile _ => true
  | _ => false

/-- The empty session directory: no artifact exists yet. -/
def emptyFS : FS := fun _ => false

/-- A session directory in which every artifact already exists. -/
def fullFS : FS := fun _ => true

/-- Oracle under which `join_cortical_surfaces` raises and every other
external operation succeeds. -/
def failJoinOracle : Oracle :=
  ⟨true, true, true, true, false, true, true, true, true⟩

/-- Oracle under which `recon_white_surface` raises and every other external
operation succeeds. -/
def failWhiteOracle : Oracle :=
  ⟨true, true, true, true, true, false, true, true, true⟩

/-- Command line `--brain --white --pial --force` (cut and check left at
their defaults). -/
def forceCLI : CLIArgs := ⟨true, true, true, false, true, true, true⟩

/-- The event trace of a default-parameter run from an empty session
directory with all external operations succeeding, at retention level 0. -/
def demoTrace : List Event :=
  [Event.reconBsCbSurface Artifact.regionsMask,
   Event.reconCorticalSurface Hemisphere.right none,
   Event.reconCorticalSurface Hemisphere.left none,
   Event.joinCorticalSurfaces none true,
   Event.removeFile Artifact.rightCerebrumMesh,
   Event.removeFile Artifact.leftCerebrumMesh,
   Event.reconWhiteSurface none (some Artifact.bsCbMesh) true,
   Event.removeFile Artifact.cerebrumMesh,
   Event.splitSurfaces Artifact.whiteMesh Artifact.rightWhiteMesh Artifact.leftWhiteMesh,
   Event.reconPialSurface (some Artifact.bsCbMesh) false true,
   Event.splitSurfaces Artifact.pialMesh Artifact.rightPialMesh Artifact.leftPialMesh]

/-- The session directory left behind by `demoTrace`. -/
def demoFS : FS := replayFS emptyFS demoTrace

/-- A session directory in which only the `t1w_image` file exists (the
corpus-callosum mask is configured but missing on disk). -/
def onlyT1wFS : FS := fun a => decide (a = Artifact.t1wImage)

/-- A session directory in which only the `corpus_callosum_mask` file
exists (the T1-weighted image is configured but missing on disk). -/
def onlyCcFS : FS := fun a => decide (a = Artifact.corpusCallosumMask)

/-! ## Infrastructure lemmas -/

theorem setA_same (s : FS) (a : Artifact) (b : Bool) : setA s a b a = b := by
  simp [setA]

theorem setA_other (s : FS) (a x : Artifact) (b : Bool) (h : x ≠ a) :
    setA s a b x = s x := by
  simp [setA, h]

theorem seqRun_err (r : St) (f : FS → Except St St) :
    seqRun (Except.error r) f = Except.error r := rfl

theorem seqRun_ok_ok {f : FS → Except St St} {s s2 : FS} {tr2 : List Event}
    (tr : List Event) (h : f s = Except.ok (tr2, s2)) :
    seqRun (Except.ok (tr, s)) f = Except.ok (tr ++ tr2, s2) := by
  simp [seqRun, h]

theorem seqRun_ok_err {f : FS → Except St St} {s s2 : FS} {tr2 : List Event}
    (tr : List Event) (h : f s = Except.error (tr2, s2)) :
    seqRun (Except.ok (tr, s)) f = Except.error (tr ++ tr2, s2) := by
  simp [seqRun, h]

theorem seqRun_nil (s : FS) (f : FS → Except St St) :
    seqRun (Except.ok ([], s)) f = f s := by
  rcases h : f s with ⟨tr2, s2⟩ | ⟨tr2, s2⟩ <;> simp [seqRun, h]

theorem seqRun_ok_elim {x : Except St St} {f : FS → Except St St}
    {tr : List Event} {s' : FS} (h : seqRun x f = Except.ok (tr, s')) :
    ∃ tr1 s1 tr2, x = Except.ok (tr1, s1) ∧ f s1 = Except.ok (tr2, s') ∧
      tr = tr1 ++ tr2 := by
  rcases x with r | ⟨tr1, s1⟩
  · rw [seqRun_err] at h; simp at h
  · rcases hf : f s1 with ⟨tr2, s2⟩ | ⟨tr2, s2⟩
    · rw [seqRun_ok_err tr1 hf] at h; simp at h
    · rw [seqRun_ok_ok tr1 hf] at h
      simp only [Except.ok.injEq, Prod.mk.injEq] at h
      exact ⟨tr1, s1, tr2, rfl, by rw [hf, h.2], h.1.symm⟩

theorem resTrace_seqRun_of_ok {x : Except St St} {tr1 : List Event} {s1 : FS}
    (f : FS → Except St St) (h : x = Except.ok (tr1, s1)) :
    resTrace (seqRun x f) = tr1 ++ resTrace (f s1) := by
  subst h
  rcases hf : f s1 with ⟨tr2, s2⟩ | ⟨tr2, s2⟩
  · rw [seqRun_ok_err tr1 hf]; rfl
  · rw [seqRun_ok_ok tr1 hf]; rfl

theorem resTrace_seqRun_of_err {x : Except St St} {r : St}
    (f : FS → Except St St) (h : x = Except.error r) :
    resTrace (seqRun x f) = resTrace x := by
  subst h; rfl

theorem runTrace_eq (p : ReconParams) (ork : Oracle) (debug : Nat) (s0 : FS) :
    runTrace p ork debug s0 = resTrace (recon_neonatal_cortex p ork debug s0) := by
  unfold runTrace resTrace
  rcases recon_neonatal_cortex p ork debug s0 with ⟨tr, s⟩ | ⟨tr, s⟩ <;> rfl

theorem traceAll_append (chk : FS → Event → Bool) (s : FS) (t1 t2 : List Event) :
    traceAll chk s (t1 ++ t2)
      = (traceAll chk s t1 && traceAll chk (replayFS s t1) t2) := by
  induction t1 generalizing s with
  | nil => simp [traceAll, replayFS]
  | cons e rest ih =>
    simp [traceAll, replayFS, List.foldl_cons, ih, Bool.and_assoc]

theorem traceAll_mono {chk1 chk2 : FS → Event → Bool}
    (himp : ∀ s e, chk1 s e = true → chk2 s e = true) :
    ∀ (tr : List Event) (s : FS), traceAll chk1 s tr = true → traceAll chk2 s tr = true
  | [], s, _ => rfl
  | e :: rest, s, h => by
    simp only [traceAll, Bool.and_eq_true] at h ⊢
    exact ⟨himp s e h.1, traceAll_mono himp rest (applyEvent s e) h.2⟩

theorem replayFS_append (s : FS) (t1 t2 : List Event) :
    replayFS s (t1 ++ t2) = replayFS (replayFS s t1) t2 := by
  simp [replayFS, List.foldl_append]

theorem seqRun_err_elim {x : Except St St} {f : FS → Except St St}
    {tr : List Event} {s' : FS} (h : seqRun x f = Except.error (tr, s')) :
    x = Except.error (tr, s') ∨
      ∃ tr1 s1 tr2, x = Except.ok (tr1, s1) ∧ f s1 = Except.error (tr2, s') ∧
        tr = tr1 ++ tr2 := by
  rcases x with ⟨tr1, s1⟩ | ⟨tr1, s1⟩
  · rw [seqRun_err] at h
    left
    exact h.symm ▸ rfl
  · rcases hf : f s1 with ⟨tr2, s2⟩ | ⟨tr2, s2⟩
    · rw [seqRun_ok_err tr1 hf] at h
      simp only [Except.error.injEq, Prod.mk.injEq] at h
      exact Or.inr ⟨tr1, s1, tr2, rfl, by rw [hf, h.2], h.1.symm⟩
    · rw [seqRun_ok_ok tr1 hf] at h
      simp at h

theorem invoke_ok_elim {okFlag : Bool} {e : Event} {s : FS}
    {tr : List Event} {s' : FS} (h : invoke okFlag e s = Except.ok (tr, s')) :
    okFlag = true ∧ tr = [e] ∧ s' = applyEvent s e := by
  cases okFlag
  · simp [invoke] at h
  · simp only [invoke, if_pos, Except.ok.injEq, Prod.mk.injEq] at h
    exact ⟨rfl, h.1.symm, h.2.symm⟩

theorem invoke_err_elim {okFlag : Bool} {e : Event} {s : FS}
    {tr : List Event} {s' : FS} (h : invoke okFlag e s = Except.error (tr, s')) :
    okFlag = false ∧ tr = [e] ∧ s' = s := by
  cases okFlag
  · simp only [invoke, Bool.false_eq_true, if_neg, Except.error.injEq,
      Prod.mk.injEq, not_false_eq_true] at h
    exact ⟨rfl, h.1.symm, h.2.symm⟩
  · simp [invoke] at h

theorem removeF_ok_elim {a : Artifact} {s : FS} {tr : List Event} {s' : FS}
    (h : removeF a s = Except.ok (tr, s')) :
    s a = true ∧ tr = [Event.removeFile a] ∧ s' = setA s a false := by
  cases hsa : s a
  · simp [removeF, hsa] at h
  · simp only [removeF, hsa, if_pos, Except.ok.injEq, Prod.mk.injEq] at h
    exact ⟨rfl, h.1.symm, h.2.symm⟩

theorem removeF_err_elim {a : Artifact} {s : FS} {tr : List Event} {s' : FS}
    (h : removeF a s = Except.error (tr, s')) :
    s a = false ∧ tr = [] ∧ s' = s := by
  cases hsa : s a
  · simp only [removeF, hsa, Bool.false_eq_true, if_neg, Except.error.injEq,
      Prod.mk.injEq, not_false_eq_true] at h
    exact ⟨rfl, h.1.symm, h.2.symm⟩
  · simp [removeF, hsa] at h

theorem removeF_go {a : Artifact} {s : FS} (h : s a = true) :
    removeF a s = Except.ok ([Event.removeFile a], setA s a false) := by
  simp [removeF, h]

theorem invoke_go {okFlag : Bool} {e : Event} {s : FS} (h : okFlag = true) :
    invoke okFlag e s = Except.ok ([e], applyEvent s e) := by
  simp [invoke, h]

theorem optInvoke_ok_elim {gate okFlag : Bool} {e : Event} {s : FS}
    {tr : List Event} {s' : FS} (h : optInvoke gate okFlag e s = Except.ok (tr, s')) :
    (tr = [] ∧ s' = s ∧ gate = false) ∨
      (tr = [e] ∧ s' = applyEvent s e ∧ gate = true ∧ okFlag = true) := by
  cases gate
  · left
    simp only [optInvoke, Bool.false_eq_true, if_neg, skipStep, Except.ok.injEq,
      Prod.mk.injEq, not_false_eq_true] at h
    exact ⟨h.1.symm, h.2.symm, rfl⟩
  · right
    simp only [optInvoke, if_pos] at h
    obtain ⟨hok, h1, h2⟩ := invoke_ok_elim h
    exact ⟨h1, h2, rfl, hok⟩

theorem optInvoke_err_elim {gate okFlag : Bool} {e : Event} {s : FS}
    {tr : List Event} {s' : FS} (h : optInvoke gate okFlag e s = Except.error (tr, s')) :
    tr = [e] ∧ s' = s ∧ gate = true ∧ okFlag = false := by
  cases gate
  · simp [optInvoke, skipStep] at h
  · simp only [optInvoke, if_pos] at h
    obtain ⟨hok, h1, h2⟩ := invoke_err_elim h
    exact ⟨h1, h2, rfl, hok⟩

theorem optInvoke_skip {gate okFlag : Bool} {e : Event} {s : FS}
    (h : gate = false) : optInvoke gate okFlag e s = Except.ok ([], s) := by
  subst h; rfl

theorem optInvoke_go {gate okFlag : Bool} {e : Event} {s : FS}
    (hg : gate = true) (hok : okFlag = true) :
    optInvoke gate okFlag e s = Except.ok ([e], applyEvent s e) := by
  subst hg; subst hok; rfl

theorem optInvoke_ok_intro {gate okFlag : Bool} {e : Event} {s : FS}
    (hok : okFlag = true) :
    ∃ tr s', optInvoke gate okFlag e s = Except.ok (tr, s') := by
  cases gate
  · exact ⟨[], s, optInvoke_skip rfl⟩
  · exact ⟨[e], applyEvent s e, optInvoke_go rfl hok⟩

theorem whiteStage_ok_elim {p : ReconParams} {ork : Oracle} {t1w : Option Artifact}
    {debug : Nat} {s : FS} {tr : List Event} {s' : FS}
    (h : whiteStage p ork t1w debug s = Except.ok (tr, s')) :
    (tr = [] ∧ s' = s ∧ (p.force || !(s Artifact.whiteMesh)) = false) ∨
      ((p.force || !(s Artifact.whiteMesh)) = true ∧ ork.whiteOk = true ∧
        ((debug < 1 ∧ s Artifact.cerebrumMesh = true ∧
            tr = [Event.reconWhiteSurface t1w (bsCbMesh2 p) p.check,
                  Event.removeFile Artifact.cerebrumMesh] ∧
            s' = setA (applyEvent s
                    (Event.reconWhiteSurface t1w (bsCbMesh2 p) p.check))
                  Artifact.cerebrumMesh false) ∨
          (¬ debug < 1 ∧
            tr = [Event.reconWhiteSurface t1w (bsCbMesh2 p) p.check] ∧
            s' = applyEvent s (Event.reconWhiteSurface t1w (bsCbMesh2 p) p.check)))) := by
  unfold whiteStage at h
  cases hg : (p.force || !(s Artifact.whiteMesh))
  · rw [if_neg (by simp [hg])] at h
    simp only [skipStep, Except.ok.injEq, Prod.mk.injEq] at h
    exact Or.inl ⟨h.1.symm, h.2.symm, rfl⟩
  · rw [if_pos hg] at h
    rcases seqRun_ok_elim h with ⟨tr1, s1, tr2, hx, hf, htr⟩
    obtain ⟨hok, htr1, hs1⟩ := invoke_ok_elim hx
    by_cases hd : debug < 1
    · rw [if_pos hd] at hf
      obtain ⟨hcer, htr2, hs'⟩ := removeF_ok_elim hf
      have hcer0 : s Artifact.cerebrumMesh = true := by
        rw [hs1] at hcer
        simpa [applyEvent, setA] using hcer
      refine Or.inr ⟨rfl, hok, Or.inl ⟨hd, hcer0, ?_, ?_⟩⟩
      · rw [htr, htr1, htr2]
        rfl
      · rw [hs', hs1]
    · rw [if_neg hd] at hf
      simp only [skipStep, Except.ok.injEq, Prod.mk.injEq] at hf
      refine Or.inr ⟨rfl, hok, Or.inr ⟨hd, ?_, ?_⟩⟩
      · rw [htr, htr1, ← hf.1]
        rfl
      · rw [← hf.2, hs1]

theorem whiteStage_err_elim {p : ReconParams} {ork : Oracle} {t1w : Option Artifact}
    {debug : Nat} {s : FS} {tr : List Event} {s' : FS}
    (h : whiteStage p ork t1w debug s = Except.error (tr, s')) :
    (p.force || !(s Artifact.whiteMesh)) = true ∧
      tr = [Event.reconWhiteSurface t1w (bsCbMesh2 p) p.check] ∧
      ((ork.whiteOk = false ∧ s' = s) ∨
        (ork.whiteOk = true ∧ debug < 1 ∧ s Artifact.cerebrumMesh = false ∧
          s' = applyEvent s (Event.reconWhiteSurface t1w (bsCbMesh2 p) p.check))) := by
  unfold whiteStage at h
  cases hg : (p.force || !(s Artifact.whiteMesh))
  · rw [if_neg (by simp [hg])] at h
    simp [skipStep] at h
  · rw [if_pos hg] at h
    rcases seqRun_err_elim h with he | ⟨tr1, s1, tr2, hx, hf, htr⟩
    · obtain ⟨hok, htr1, hs'⟩ := invoke_err_elim he
      exact ⟨rfl, htr1, Or.inl ⟨hok, hs'⟩⟩
    · obtain ⟨hok, htr1, hs1⟩ := invoke_ok_elim hx
      by_cases hd : debug < 1
      · rw [if_pos hd] at hf
        obtain ⟨hcer, htr2, hs'⟩ := removeF_err_elim hf
        have hcer0 : s Artifact.cerebrumMesh = false := by
          rw [hs1] at hcer
          simpa [applyEvent, setA] using hcer
        refine ⟨rfl, ?_, Or.inr ⟨hok, hd, hcer0, by rw [hs', hs1]⟩⟩
        rw [htr, htr1, htr2]
        rfl
      · rw [if_neg hd] at hf
        simp [skipStep] at hf

theorem rightSideFacts {p : ReconParams} {ork : Oracle} {cc : Option Artifact}
    {s : FS} {tr1 : List Event} {s1 : FS}
    (h : optInvoke (p.force || !(s Artifact.rightCerebrumMesh)) ork.rightCorticalOk
        (Event.reconCorticalSurface Hemisphere.right cc) s = Except.ok (tr1, s1)) :
    (tr1 = [] ∨ tr1 = [Event.reconCorticalSurface Hemisphere.right cc]) ∧
      s1 Artifact.rightCerebrumMesh = true ∧
      (∀ a, a ≠ Artifact.rightCerebrumMesh → s1 a = s a) ∧
      replayFS s tr1 = s1 := by
  rcases optInvoke_ok_elim h with ⟨h1, h2, h3⟩ | ⟨h1, h2, h3, h4⟩
  · subst h1; subst h2
    simp at h3
    exact ⟨Or.inl rfl, h3.2, fun a _ => rfl, rfl⟩
  · subst h1; subst h2
    refine ⟨Or.inr rfl, by simp [applyEvent, setA], ?_, rfl⟩
    intro a ha
    simp [applyEvent, setA, ha]

theorem leftSideFacts {p : ReconParams} {ork : Oracle} {cc : Option Artifact}
    {s : FS} {tr2 : List Event} {s2 : FS}
    (h : optInvoke (p.force || !(s Artifact.leftCerebrumMesh)) ork.leftCorticalOk
        (Event.reconCorticalSurface Hemisphere.left cc) s = Except.ok (tr2, s2)) :
    (tr2 = [] ∨ tr2 = [Event.reconCorticalSurface Hemisphere.left cc]) ∧
      s2 Artifact.leftCerebrumMesh = true ∧
      (∀ a, a ≠ Artifact.leftCerebrumMesh → s2 a = s a) ∧
      replayFS s tr2 = s2 := by
  rcases optInvoke_ok_elim h with ⟨h1, h2, h3⟩ | ⟨h1, h2, h3, h4⟩
  · subst h1; subst h2
    simp at h3
    exact ⟨Or.inl rfl, h3.2, fun a _ => rfl, rfl⟩
  · subst h1; subst h2
    refine ⟨Or.inr rfl, by simp [applyEvent, setA], ?_, rfl⟩
    intro a ha
    simp [applyEvent, setA, ha]

theorem hemiJoinBlock_ok_elim {p : ReconParams} {ork : Oracle} {cc : Option Artifact}
    {debug : Nat} {s : FS} {tr : List Event} {s' : FS}
    (h : hemiJoinBlock p ork cc debug s = Except.ok (tr, s')) :
    (tr = [] ∧ s' = s ∧ (p.force || !(s Artifact.cerebrumMesh)) = false) ∨
      ∃ hp sh,
        (p.force || !(s Artifact.cerebrumMesh)) = true ∧
        (hp = [] ∨ hp = [Event.reconCorticalSurface Hemisphere.right cc] ∨
          hp = [Event.reconCorticalSurface Hemisphere.left cc] ∨
          hp = [Event.reconCorticalSurface Hemisphere.right cc,
                Event.reconCorticalSurface Hemisphere.left cc]) ∧
        replayFS s hp = sh ∧
        sh Artifact.rightCerebrumMesh = true ∧
        sh Artifact.leftCerebrumMesh = true ∧
        (∀ a, a ≠ Artifact.rightCerebrumMesh → a ≠ Artifact.leftCerebrumMesh →
          sh a = s a) ∧
        ork.joinOk = true ∧
        ((debug < 1 ∧
            tr = hp ++ [Event.joinCorticalSurfaces (bsCbMesh1 p) p.check,
                        Event.removeFile Artifact.rightCerebrumMesh,
                        Event.removeFile Artifact.leftCerebrumMesh] ∧
            s' = setA (setA (applyEvent sh
                    (Event.joinCorticalSurfaces (bsCbMesh1 p) p.check))
                  Artifact.rightCerebrumMesh false) Artifact.leftCerebrumMesh false) ∨
          (¬ debug < 1 ∧
            tr = hp ++ [Event.joinCorticalSurfaces (bsCbMesh1 p) p.check] ∧
            s' = applyEvent sh (Event.joinCorticalSurfaces (bsCbMesh1 p) p.check))) := by
  unfold hemiJoinBlock at h
  cases hg : (p.force || !(s Artifact.cerebrumMesh))
  · rw [if_neg (by simp [hg])] at h
    simp only [skipStep, Except.ok.injEq, Prod.mk.injEq] at h
    exact Or.inl ⟨h.1.symm, h.2.symm, rfl⟩
  · rw [if_pos hg] at h
    rcases seqRun_ok_elim h with ⟨tr1, s1, trA, hR, hA, htr⟩
    rcases seqRun_ok_elim hA with ⟨tr2, s2, trB, hL, hB, htrA⟩
    rcases seqRun_ok_elim hB with ⟨tr3, s3, trC, hJ, hC, htrB⟩
    obtain ⟨hRsh, hRrh, hRfr, hRrep⟩ := rightSideFacts hR
    obtain ⟨hLsh, hLlh, hLfr, hLrep⟩ := leftSideFacts hL
    obtain ⟨hjok, htr3, hs3⟩ := invoke_ok_elim hJ
    have hrh2 : s2 Artifact.rightCerebrumMesh = true := by
      rw [hLfr _ (by decide)]; exact hRrh
    have hshape : (tr1 ++ tr2 = [] ∨
        tr1 ++ tr2 = [Event.reconCorticalSurface Hemisphere.right cc] ∨
        tr1 ++ tr2 = [Event.reconCorticalSurface Hemisphere.left cc] ∨
        tr1 ++ tr2 = [Event.reconCorticalSurface Hemisphere.right cc,
                      Event.reconCorticalSurface Hemisphere.left cc]) := by
      rcases hRsh with h1 | h1 <;> rcases hLsh with h2 | h2 <;> subst h1 <;> subst h2 <;> simp
    have hrep : replayFS s (tr1 ++ tr2) = s2 := by
      rw [replayFS_append, hRrep, hLrep]
    have hfr : ∀ a, a ≠ Artifact.rightCerebrumMesh → a ≠ Artifact.leftCerebrumMesh →
        s2 a = s a := by
      intro a ha hb
      rw [hLfr a hb, hRfr a ha]
    by_cases hd : debug < 1
    · rw [if_pos hd] at hC
      rcases seqRun_ok_elim hC with ⟨trD, s4, trE, hD, hE, htrC⟩
      obtain ⟨hD1, hD2, hD3⟩ := removeF_ok_elim hD
      obtain ⟨hE1, hE2, hE3⟩ := removeF_ok_elim hE
      refine Or.inr ⟨tr1 ++ tr2, s2, rfl, hshape, hrep, hrh2, hLlh, hfr, hjok,
        Or.inl ⟨hd, ?_, ?_⟩⟩
      · rw [htr, htrA, htrB, htr3, htrC, hD2, hE2]
        simp
      · rw [hE3, hD3, hs3]
    · rw [if_neg hd] at hC
      simp only [skipStep, Except.ok.injEq, Prod.mk.injEq] at hC
      refine Or.inr ⟨tr1 ++ tr2, s2, rfl, hshape, hrep, hrh2, hLlh, hfr, hjok,
        Or.inr ⟨hd, ?_, ?_⟩⟩
      · rw [htr, htrA, htrB, htr3, ← hC.1]
        simp
      · rw [← hC.2, hs3]

theorem hemiJoinBlock_err_elim {p : ReconParams} {ork : Oracle} {cc : Option Artifact}
    {debug : Nat} {s : FS} {tr : List Event} {s' : FS}
    (h : hemiJoinBlock p ork cc debug s = Except.error (tr, s')) :
    (p.force || !(s Artifact.cerebrumMesh)) = true ∧
      ((ork.rightCorticalOk = false ∧
          tr = [Event.reconCorticalSurface Hemisphere.right cc] ∧ s' = s) ∨
        (∃ tp sp, (tp = [] ∨ tp = [Event.reconCorticalSurface Hemisphere.right cc]) ∧
          replayFS s tp = sp ∧ ork.leftCorticalOk = false ∧
          tr = tp ++ [Event.reconCorticalSurface Hemisphere.left cc] ∧ s' = sp) ∨
        (∃ hp sh,
          (hp = [] ∨ hp = [Event.reconCorticalSurface Hemisphere.right cc] ∨
            hp = [Event.reconCorticalSurface Hemisphere.left cc] ∨
            hp = [Event.reconCorticalSurface Hemisphere.right cc,
                  Event.reconCorticalSurface Hemisphere.left cc]) ∧
          replayFS s hp = sh ∧
          sh Artifact.rightCerebrumMesh = true ∧ sh Artifact.leftCerebrumMesh = true ∧
          (∀ a, a ≠ Artifact.rightCerebrumMesh → a ≠ Artifact.leftCerebrumMesh →
            sh a = s a) ∧
          ork.joinOk = false ∧
          tr = hp ++ [Event.joinCorticalSurfaces (bsCbMesh1 p) p.check] ∧
          s' = sh)) := by
  unfold hemiJoinBlock at h
  cases hg : (p.force || !(s Artifact.cerebrumMesh))
  · rw [if_neg (by simp [hg])] at h
    simp [skipStep] at h
  · rw [if_pos hg] at h
    rcases seqRun_err_elim h with he | ⟨tr1, s1, trA, hR, hA, htr⟩
    · obtain ⟨h1, h2, h3, h4⟩ := optInvoke_err_elim he
      exact ⟨rfl, Or.inl ⟨h4, h1, h2⟩⟩
    · obtain ⟨hRsh, hRrh, hRfr, hRrep⟩ := rightSideFacts hR
      rcases seqRun_err_elim hA with he | ⟨tr2, s2, trB, hL, hB, htrA⟩
      · obtain ⟨h1, h2, h3, h4⟩ := optInvoke_err_elim he
        refine ⟨rfl, Or.inr (Or.inl ⟨tr1, s1, hRsh, hRrep, h4, ?_, h2⟩)⟩
        rw [htr, h1]
      · obtain ⟨hLsh, hLlh, hLfr, hLrep⟩ := leftSideFacts hL
        have hrh2 : s2 Artifact.rightCerebrumMesh = true := by
          rw [hLfr _ (by decide)]; exact hRrh
        have hshape : (tr1 ++ tr2 = [] ∨
            tr1 ++ tr2 = [Event.reconCorticalSurface Hemisphere.right cc] ∨
            tr1 ++ tr2 = [Event.reconCorticalSurface Hemisphere.left cc] ∨
            tr1 ++ tr2 = [Event.reconCorticalSurface Hemisphere.right cc,
                          Event.reconCorticalSurface Hemisphere.left cc]) := by
          rcases hRsh with h1 | h1 <;> rcases hLsh with h2 | h2 <;>
            subst h1 <;> subst h2 <;> simp
        have hrep : replayFS s (tr1 ++ tr2) = s2 := by
          rw [replayFS_append, hRrep, hLrep]
        have hfr : ∀ a, a ≠ Artifact.rightCerebrumMesh →
            a ≠ Artifact.leftCerebrumMesh → s2 a = s a := by
          intro a ha hb
          rw [hLfr a hb, hRfr a ha]
        rcases seqRun_err_elim hB with he | ⟨tr3, s3, trC, hJ, hC, htrB⟩
        · obtain ⟨hjok, h1, h2⟩ := invoke_err_elim he
          refine ⟨rfl, Or.inr (Or.inr ⟨tr1 ++ tr2, s2, hshape, hrep, hrh2, hLlh,
            hfr, hjok, ?_, h2⟩)⟩
          rw [htr, htrA, h1]
          simp
        · obtain ⟨hjok, htr3, hs3⟩ := invoke_ok_elim hJ
          by_cases hd : debug < 1
          · rw [if_pos hd] at hC
            rcases seqRun_err_elim hC with he | ⟨trD, s4, trE, hD, hE, htrC⟩
            · obtain ⟨h1, h2, h3⟩ := removeF_err_elim he
              rw [hs3] at h1
              rw [show applyEvent s2 (Event.joinCorticalSurfaces (bsCbMesh1 p) p.check)
                    Artifact.rightCerebrumMesh = s2 Artifact.rightCerebrumMesh from by
                  simp [applyEvent, setA], hrh2] at h1
              simp at h1
            · obtain ⟨hD1, hD2, hD3⟩ := removeF_ok_elim hD
              obtain ⟨h1, h2, h3⟩ := removeF_err_elim hE
              rw [hD3, hs3] at h1
              rw [show setA (applyEvent s2
                      (Event.joinCorticalSurfaces (bsCbMesh1 p) p.check))
                    Artifact.rightCerebrumMesh false Artifact.leftCerebrumMesh
                    = s2 Artifact.leftCerebrumMesh from by
                  simp [applyEvent, setA], hLlh] at h1
              simp at h1
          · rw [if_neg hd] at hC
            simp [skipStep] at hC

theorem hpChk (p : ReconParams) (s0 : FS) {s : FS} {hp : List Event}
    (hshape : hp = [] ∨
      hp = [Event.reconCorticalSurface Hemisphere.right (ccOption s0)] ∨
      hp = [Event.reconCorticalSurface Hemisphere.left (ccOption s0)] ∨
      hp = [Event.reconCorticalSurface Hemisphere.right (ccOption s0),
            Event.reconCorticalSurface Hemisphere.left (ccOption s0)]) :
    traceAll (chkAll p s0) s hp = true := by
  rcases hshape with h | h | h | h <;> subst h <;>
    simp [traceAll, chkAll, depOkEvent, eventArgsOk]

theorem hemiOuter_ok_facts {p : ReconParams} {ork : Oracle} {debug : Nat}
    {s0 s : FS} {t3 : List Event} {s3 : FS}
    (h : hemiOuterStage p ork (ccOption s0) debug s = Except.ok (t3, s3)) :
    traceAll (chkAll p s0) s t3 = true ∧
      replayFS s t3 = s3 ∧
      ((p.force || !(s Artifact.whiteMesh)) = true → s3 Artifact.cerebrumMesh = true) ∧
      s3 Artifact.whiteMesh = s Artifact.whiteMesh := by
  unfold hemiOuterStage at h
  cases hg : (p.force || !(s Artifact.whiteMesh))
  · rw [if_neg (by simp [hg])] at h
    simp only [skipStep, Except.ok.injEq, Prod.mk.injEq] at h
    refine ⟨by rw [← h.1]; rfl, by rw [← h.1, ← h.2]; rfl, ?_, by rw [← h.2]⟩
    intro hx
    cases hx
  · rw [if_pos hg] at h
    rcases hemiJoinBlock_ok_elim h with ⟨h1, h2, h3⟩ |
      ⟨hp, sh, hcg, hshape, hrep, hrh, hlh, hfr, hjok, hrest⟩
    · subst h1; subst h2
      simp at h3
      exact ⟨rfl, rfl, fun _ => h3.2, rfl⟩
    · have hwfr : sh Artifact.whiteMesh = s Artifact.whiteMesh :=
        hfr _ (by decide) (by decide)
      rcases hrest with ⟨hd, htr, hs3⟩ | ⟨hd, htr, hs3⟩ <;> subst htr <;> subst hs3
      · refine ⟨?_, ?_, fun _ => ?_, ?_⟩
        · rw [traceAll_append, hpChk p s0 hshape, hrep]
          simp [traceAll, chkAll, depOkEvent, eventArgsOk, hrh, hlh]
        · rw [replayFS_append, hrep]
          simp [replayFS, applyEvent]
        · simp [applyEvent, setA]
        · simp only [applyEvent, setA]
          simp only [show (Artifact.whiteMesh = Artifact.leftCerebrumMesh) = False
              from by simp, show (Artifact.whiteMesh = Artifact.rightCerebrumMesh) = False
              from by simp, show (Artifact.whiteMesh = Artifact.internalMesh) = False
              from by simp, show (Artifact.whiteMesh = Artifact.cerebrumMesh) = False
              from by simp, if_false]
          exact hwfr
      · refine ⟨?_, ?_, fun _ => ?_, ?_⟩
        · rw [traceAll_append, hpChk p s0 hshape, hrep]
          simp [traceAll, chkAll, depOkEvent, eventArgsOk, hrh, hlh]
        · rw [replayFS_append, hrep]
          simp [replayFS, applyEvent]
        · simp [applyEvent, setA]
        · simp only [applyEvent, setA]
          simp only [show (Artifact.whiteMesh = Artifact.internalMesh) = False
              from by simp, show (Artifact.whiteMesh = Artifact.cerebrumMesh) = False
              from by simp, if_false]
          exact hwfr

theorem hemiOuter_err_facts {p : ReconParams} {ork : Oracle} {debug : Nat}
    {s0 s : FS} {t3 : List Event} {s3 : FS}
    (h : hemiOuterStage p ork (ccOption s0) debug s = Except.error (t3, s3)) :
    traceAll (chkAll p s0) s t3 = true := by
  unfold hemiOuterStage at h
  cases hg : (p.force || !(s Artifact.whiteMesh))
  · rw [if_neg (by simp [hg])] at h
    simp [skipStep] at h
  · rw [if_pos hg] at h
    obtain ⟨-, hcase⟩ := hemiJoinBlock_err_elim h
    rcases hcase with ⟨-, htr, -⟩ | ⟨tp, sp, hsh, hrep, -, htr, -⟩ |
      ⟨hp, sh, hshape, hrep, hrh, hlh, -, -, htr, -⟩
    · subst htr
      simp [traceAll, chkAll, depOkEvent, eventArgsOk]
    · subst htr
      rw [traceAll_append]
      have h1 : traceAll (chkAll p s0) s tp = true := by
        rcases hsh with h1 | h1 <;> subst h1 <;>
          simp [traceAll, chkAll, depOkEvent, eventArgsOk]
      rw [h1, hrep]
      simp [traceAll, chkAll, depOkEvent, eventArgsOk]
    · subst htr
      rw [traceAll_append, hpChk p s0 hshape, hrep]
      simp [traceAll, chkAll, depOkEvent, eventArgsOk, hrh, hlh]

theorem whiteStage_ok_facts {p : ReconParams} {ork : Oracle} {debug : Nat}
    {s0 s : FS} {t4 : List Event} {s4 : FS}
    (h : whiteStage p ork (t1wOption s0) debug s = Except.ok (t4, s4))
    (hcer : (p.force || !(s Artifact.whiteMesh)) = true →
      s Artifact.cerebrumMesh = true) :
    traceAll (chkAll p s0) s t4 = true ∧
      replayFS s t4 = s4 ∧
      s4 Artifact.whiteMesh = true ∧
      (∀ a, a ≠ Artifact.whiteMesh → a ≠ Artifact.cerebrumMesh → s4 a = s a) := by
  rcases whiteStage_ok_elim h with ⟨h1, h2, h3⟩ | ⟨hg, hok, hcase⟩
  · subst h1; subst h2
    simp at h3
    exact ⟨rfl, rfl, h3.2, fun a _ _ => rfl⟩
  · have hc := hcer hg
    rcases hcase with ⟨hd, hcm, htr, hs4⟩ | ⟨hd, htr, hs4⟩ <;> subst htr <;> subst hs4
    · refine ⟨?_, ?_, ?_, ?_⟩
      · simp [traceAll, chkAll, depOkEvent, eventArgsOk, hc]
      · simp [replayFS, applyEvent]
      · simp [applyEvent, setA]
      · intro a h1 h2
        simp [applyEvent, setA, h1, h2]
    · refine ⟨?_, ?_, ?_, ?_⟩
      · simp [traceAll, chkAll, depOkEvent, eventArgsOk, hc]
      · simp [replayFS]
      · simp [applyEvent, setA]
      · intro a h1 h2
        simp [applyEvent, setA, h1, h2]

theorem whiteStage_err_facts {p : ReconParams} {ork : Oracle} {debug : Nat}
    {s0 s : FS} {t4 : List Event} {s4 : FS}
    (h : whiteStage p ork (t1wOption s0) debug s = Except.error (t4, s4))
    (hcer : (p.force || !(s Artifact.whiteMesh)) = true →
      s Artifact.cerebrumMesh = true) :
    traceAll (chkAll p s0) s t4 = true := by
  obtain ⟨hg, htr, -⟩ := whiteStage_err_elim h
  subst htr
  simp [traceAll, chkAll, depOkEvent, eventArgsOk, hcer hg]

theorem hemiJoinBlock_ok_intro (p : ReconParams) (ork : Oracle)
    (cc : Option Artifact) (debug : Nat) (s : FS)
    (hr : ork.rightCorticalOk = true) (hl : ork.leftCorticalOk = true)
    (hj : ork.joinOk = true) :
    ∃ tr s', hemiJoinBlock p ork cc debug s = Except.ok (tr, s') := by
  rcases hres : hemiJoinBlock p ork cc debug s with ⟨tr, s'⟩ | ⟨tr, s'⟩
  · obtain ⟨-, hcase⟩ := hemiJoinBlock_err_elim hres
    rcases hcase with ⟨h1, -, -⟩ | ⟨tp, sp, -, -, h1, -, -⟩ |
      ⟨hp, sh, -, -, -, -, -, h1, -, -⟩
    · rw [hr] at h1; cases h1
    · rw [hl] at h1; cases h1
    · rw [hj] at h1; cases h1
  · exact ⟨tr, s', rfl⟩

theorem hemiOuter_ok_intro (p : ReconParams) (ork : Oracle)
    (cc : Option Artifact) (debug : Nat) (s : FS)
    (hr : ork.rightCorticalOk = true) (hl : ork.leftCorticalOk = true)
    (hj : ork.joinOk = true) :
    ∃ tr s', hemiOuterStage p ork cc debug s = Except.ok (tr, s') := by
  unfold hemiOuterStage
  cases hg : (p.force || !(s Artifact.whiteMesh))
  · exact ⟨[], s, by rw [if_neg (by decide)]; rfl⟩
  · rw [if_pos rfl]
    exact hemiJoinBlock_ok_intro p ork cc debug s hr hl hj

theorem whiteStage_ok_intro (p : ReconParams) (ork : Oracle)
    (t1w : Option Artifact) (debug : Nat) (s : FS)
    (hw : ork.whiteOk = true)
    (hcer : (p.force || !(s Artifact.whiteMesh)) = true →
      s Artifact.cerebrumMesh = true) :
    ∃ tr s', whiteStage p ork t1w debug s = Except.ok (tr, s') := by
  rcases hres : whiteStage p ork t1w debug s with ⟨tr, s'⟩ | ⟨tr, s'⟩
  · obtain ⟨hg, htr, hcase⟩ := whiteStage_err_elim hres
    rcases hcase with ⟨h1, -⟩ | ⟨-, -, h1, -⟩
    · rw [hw] at h1; cases h1
    · rw [hcer hg] at h1; cases h1
  · exact ⟨tr, s', rfl⟩

theorem runOk_seqRun (tr : List Event) (s : FS) (f : FS → Except St St) :
    runOk (seqRun (Except.ok (tr, s)) f) = runOk (f s) := by
  rcases hf : f s with ⟨a, b⟩ | ⟨a, b⟩
  · rw [seqRun_ok_err tr hf]; rfl
  · rw [seqRun_ok_ok tr hf]; rfl

theorem cutPialStage_chk (p : ReconParams) (ork : Oracle) (s0 s : FS) :
    traceAll (chkAll p s0) s (resTrace (cutPialStage p ork s)) = true := by
  rcases hC : cutPialStage p ork s with ⟨t7, s7⟩ | ⟨t7, s7⟩ <;>
    (have hC2 := hC; unfold cutPialStage at hC2)
  · obtain ⟨h1, -, -, -⟩ := optInvoke_err_elim hC2
    subst h1
    simp [resTrace, traceAll, chkAll, depOkEvent, eventArgsOk]
  · rcases optInvoke_ok_elim hC2 with ⟨h1, -, -⟩ | ⟨h1, -, -, -⟩ <;> subst h1 <;>
      simp [resTrace, traceAll, chkAll, depOkEvent, eventArgsOk]

theorem pialPart_chk {p : ReconParams} {ork : Oracle} {s0 s : FS}
    (hwhite : s Artifact.whiteMesh = true) :
    traceAll (chkAll p s0) s (resTrace (pialPart p ork s)) = true := by
  unfold pialPart
  rcases hP : pialStage p ork s with ⟨t6, s6⟩ | ⟨t6, s6⟩ <;>
    (have hP2 := hP; unfold pialStage at hP2)
  · rw [resTrace_seqRun_of_err _ rfl]
    obtain ⟨h1, -, -, -⟩ := optInvoke_err_elim hP2
    subst h1
    simp [resTrace, traceAll, chkAll, depOkEvent, eventArgsOk, hwhite]
  · rw [resTrace_seqRun_of_ok _ rfl, traceAll_append]
    rcases optInvoke_ok_elim hP2 with ⟨h1, h2, -⟩ | ⟨h1, h2, -, -⟩ <;>
      subst h1 <;> subst h2 <;>
      simp only [replayFS, List.foldl_cons, List.foldl_nil] <;>
      rw [Bool.and_eq_true] <;> constructor
    · simp [traceAll]
    · exact cutPialStage_chk p ork s0 _
    · simp [traceAll, chkAll, depOkEvent, eventArgsOk, hwhite]
    · exact cutPialStage_chk p ork s0 _

theorem cutWhitePart_chk {p : ReconParams} {ork : Oracle} {s0 s : FS}
    (hwhite : s Artifact.whiteMesh = true) :
    traceAll (chkAll p s0) s (resTrace (cutWhitePart p ork s)) = true := by
  unfold cutWhitePart
  rcases hC : cutWhiteStage p ork s with ⟨t5, s5⟩ | ⟨t5, s5⟩ <;>
    (have hC2 := hC; unfold cutWhiteStage at hC2)
  · rw [resTrace_seqRun_of_err _ rfl]
    obtain ⟨h1, -, -, -⟩ := optInvoke_err_elim hC2
    subst h1
    simp [resTrace, traceAll, chkAll, depOkEvent, eventArgsOk]
  · rw [resTrace_seqRun_of_ok _ rfl, traceAll_append]
    rcases optInvoke_ok_elim hC2 with ⟨h1, h2, -⟩ | ⟨h1, h2, -, -⟩ <;>
      subst h1 <;> subst h2 <;>
      simp only [replayFS, List.foldl_cons, List.foldl_nil] <;>
      rw [Bool.and_eq_true] <;> constructor
    · simp [traceAll]
    · exact pialPart_chk hwhite
    · simp [traceAll, chkAll, depOkEvent, eventArgsOk]
    · refine pialPart_chk ?_
      simp [applyEvent, setA, hwhite]

theorem whitePart_chk {p : ReconParams} {ork : Oracle} {debug : Nat} {s0 s : FS}
    (hcer : (p.force || !(s Artifact.whiteMesh)) = true →
      s Artifact.cerebrumMesh = true) :
    traceAll (chkAll p s0) s (resTrace (whitePart p ork debug s0 s)) = true := by
  unfold whitePart
  rcases hW : whiteStage p ork (t1wOption s0) debug s with ⟨t4, s4⟩ | ⟨t4, s4⟩
  · rw [resTrace_seqRun_of_err _ rfl]
    exact whiteStage_err_facts hW hcer
  · rw [resTrace_seqRun_of_ok _ rfl, traceAll_append]
    obtain ⟨hchk, hrep, hwhite, -⟩ := whiteStage_ok_facts hW hcer
    rw [hchk, hrep]
    simp only [Bool.true_and]
    exact cutWhitePart_chk hwhite

theorem corticalPart_chk (p : ReconParams) (ork : Oracle) (debug : Nat)
    (s0 s : FS) :
    traceAll (chkAll p s0) s (resTrace (corticalPart p ork debug s0 s)) = true := by
  unfold corticalPart
  cases hwp : (p.withWhiteMesh || p.withPialMesh)
  · rw [if_neg (by decide)]
    rfl
  · rw [if_pos rfl]
    rcases hH : hemiOuterStage p ork (ccOption s0) debug s with ⟨t3, s3⟩ | ⟨t3, s3⟩
    · rw [resTrace_seqRun_of_err _ rfl]
      exact hemiOuter_err_facts hH
    · rw [resTrace_seqRun_of_ok _ rfl, traceAll_append]
      obtain ⟨hchk, hrep, hcer, hwfr⟩ := hemiOuter_ok_facts hH
      rw [hchk, hrep]
      simp only [Bool.true_and]
      refine whitePart_chk ?_
      intro hx
      rw [hwfr] at hx
      exact hcer hx

theorem bsCbPart_chk (p : ReconParams) (ork : Oracle) (debug : Nat)
    (s0 s : FS) :
    traceAll (chkAll p s0) s (resTrace (bsCbPart p ork debug s0 s)) = true := by
  unfold bsCbPart
  rcases hB : bsCbStage p ork s with ⟨t2, s2⟩ | ⟨t2, s2⟩ <;>
    (have hB2 := hB; unfold bsCbStage at hB2)
  · rw [resTrace_seqRun_of_err _ rfl]
    obtain ⟨h1, -, -, -⟩ := optInvoke_err_elim hB2
    subst h1
    simp [resTrace, traceAll, chkAll, depOkEvent, eventArgsOk]
  · rw [resTrace_seqRun_of_ok _ rfl, traceAll_append]
    rcases optInvoke_ok_elim hB2 with ⟨h1, h2, -⟩ | ⟨h1, h2, -, -⟩ <;>
      subst h1 <;> subst h2 <;>
      simp only [replayFS, List.foldl_cons, List.foldl_nil] <;>
      rw [Bool.and_eq_true] <;> constructor
    · simp [traceAll]
    · exact corticalPart_chk p ork debug s0 _
    · simp [traceAll, chkAll, depOkEvent, eventArgsOk]
    · exact corticalPart_chk p ork debug s0 _

theorem recon_chkAll (p : ReconParams) (ork : Oracle) (debug : Nat) (s0 : FS) :
    traceAll (chkAll p s0) s0 (runTrace p ork debug s0) = true := by
  rw [runTrace_eq]
  unfold recon_neonatal_cortex
  rcases hB : brainStage p ork s0 with ⟨t1, s1⟩ | ⟨t1, s1⟩ <;>
    (have hB2 := hB; unfold brainStage at hB2)
  · rw [resTrace_seqRun_of_err _ rfl]
    obtain ⟨h1, -, -, -⟩ := optInvoke_err_elim hB2
    subst h1
    simp [resTrace, traceAll, chkAll, depOkEvent, eventArgsOk]
  · rw [resTrace_seqRun_of_ok _ rfl, traceAll_append]
    rcases optInvoke_ok_elim hB2 with ⟨h1, h2, -⟩ | ⟨h1, h2, -, -⟩ <;>
      subst h1 <;> subst h2 <;>
      simp only [replayFS, List.foldl_cons, List.foldl_nil] <;>
      rw [Bool.and_eq_true] <;> constructor
    · simp [traceAll]
    · exact bsCbPart_chk p ork debug _ _
    · simp [traceAll, chkAll, depOkEvent, eventArgsOk]
    · exact bsCbPart_chk p ork debug _ _

theorem brainStage_post {p : ReconParams} {ork : Oracle} {s : FS}
    {tr : List Event} {s' : FS} (h : brainStage p ork s = Except.ok (tr, s')) :
    (p.withBrainMesh = true → s' Artifact.brainMesh = true) ∧
      (∀ a, a ≠ Artifact.brainMesh → s' a = s a) := by
  have h2 := h
  unfold brainStage at h2
  rcases optInvoke_ok_elim h2 with ⟨h1, hs, hg⟩ | ⟨h1, hs, -, -⟩ <;> subst hs
  · refine ⟨?_, fun a _ => rfl⟩
    intro hwb
    rw [hwb] at hg
    simp at hg
    exact hg.2
  · exact ⟨fun _ => by simp [applyEvent, setA],
      fun a ha => by simp [applyEvent, setA, ha]⟩

theorem bsCbStage_post {p : ReconParams} {ork : Oracle} {s : FS}
    {tr : List Event} {s' : FS} (h : bsCbStage p ork s = Except.ok (tr, s')) :
    (p.withBsCbMesh = true → s' Artifact.bsCbMesh = true) ∧
      (∀ a, a ≠ Artifact.bsCbMesh → s' a = s a) := by
  have h2 := h
  unfold bsCbStage at h2
  rcases optInvoke_ok_elim h2 with ⟨h1, hs, hg⟩ | ⟨h1, hs, -, -⟩ <;> subst hs
  · refine ⟨?_, fun a _ => rfl⟩
    intro hwb
    rw [hwb] at hg
    simp at hg
    exact hg.2
  · exact ⟨fun _ => by simp [applyEvent, setA],
      fun a ha => by simp [applyEvent, setA, ha]⟩

theorem cutWhiteStage_post {p : ReconParams} {ork : Oracle} {s : FS}
    {tr : List Event} {s' : FS} (h : cutWhiteStage p ork s = Except.ok (tr, s')) :
    (p.cut = true → s' Artifact.rightWhiteMesh = true ∧
      s' Artifact.leftWhiteMesh = true) ∧
      (∀ a, a ≠ Artifact.rightWhiteMesh → a ≠ Artifact.leftWhiteMesh → s' a = s a) := by
  have h2 := h
  unfold cutWhiteStage at h2
  rcases optInvoke_ok_elim h2 with ⟨h1, hs, hg⟩ | ⟨h1, hs, -, -⟩ <;> subst hs
  · refine ⟨?_, fun a _ _ => rfl⟩
    intro hc
    rw [hc] at hg
    simp at hg
    exact ⟨hg.1.2, hg.2⟩
  · exact ⟨fun _ => by constructor <;> simp [applyEvent, setA],
      fun a h1 h2 => by simp [applyEvent, setA, h1, h2]⟩

theorem pialStage_post {p : ReconParams} {ork : Oracle} {s : FS}
    {tr : List Event} {s' : FS} (h : pialStage p ork s = Except.ok (tr, s')) :
    (p.withPialMesh = true → s' Artifact.pialMesh = true) ∧
      (∀ a, a ≠ Artifact.pialMesh → s' a = s a) := by
  have h2 := h
  unfold pialStage at h2
  rcases optInvoke_ok_elim h2 with ⟨h1, hs, hg⟩ | ⟨h1, hs, -, -⟩ <;> subst hs
  · refine ⟨?_, fun a _ => rfl⟩
    intro hwb
    rw [hwb] at hg
    simp at hg
    exact hg.2
  · exact ⟨fun _ => by simp [applyEvent, setA],
      fun a ha => by simp [applyEvent, setA, ha]⟩

theorem cutPialStage_post {p : ReconParams} {ork : Oracle} {s : FS}
    {tr : List Event} {s' : FS} (h : cutPialStage p ork s = Except.ok (tr, s')) :
    (p.cut = true → p.withPialMesh = true →
      s' Artifact.rightPialMesh = true ∧ s' Artifact.leftPialMesh = true) ∧
      (∀ a, a ≠ Artifact.rightPialMesh → a ≠ Artifact.leftPialMesh → s' a = s a) := by
  have h2 := h
  unfold cutPialStage at h2
  rcases optInvoke_ok_elim h2 with ⟨h1, hs, hg⟩ | ⟨h1, hs, -, -⟩ <;> subst hs
  · refine ⟨?_, fun a _ _ => rfl⟩
    intro hc hwp
    rw [hc, hwp] at hg
    simp at hg
    exact ⟨hg.1.2, hg.2⟩
  · exact ⟨fun _ _ => by constructor <;> simp [applyEvent, setA],
      fun a h1 h2 => by simp [applyEvent, setA, h1, h2]⟩

theorem whiteStage_post {p : ReconParams} {ork : Oracle} {t1w : Option Artifact}
    {debug : Nat} {s : FS} {tr : List Event} {s' : FS}
    (h : whiteStage p ork t1w debug s = Except.ok (tr, s')) :
    s' Artifact.whiteMesh = true ∧
      (∀ a, a ≠ Artifact.whiteMesh → a ≠ Artifact.cerebrumMesh → s' a = s a) := by
  rcases whiteStage_ok_elim h with ⟨h1, h2, h3⟩ | ⟨hg, hok, hcase⟩
  · subst h2
    simp at h3
    exact ⟨h3.2, fun a _ _ => rfl⟩
  · rcases hcase with ⟨-, -, -, hs⟩ | ⟨-, -, hs⟩ <;> subst hs
    · exact ⟨by simp [applyEvent, setA],
        fun a h1 h2 => by simp [applyEvent, setA, h1, h2]⟩
    · exact ⟨by simp [applyEvent, setA],
        fun a h1 h2 => by simp [applyEvent, setA, h1, h2]⟩

theorem hemiOuter_frame {p : ReconParams} {ork : Oracle} {cc : Option Artifact}
    {debug : Nat} {s : FS} {tr : List Event} {s' : FS}
    (h : hemiOuterStage p ork cc debug s = Except.ok (tr, s')) :
    ∀ a, a ≠ Artifact.rightCerebrumMesh → a ≠ Artifact.leftCerebrumMesh →
      a ≠ Artifact.cerebrumMesh → a ≠ Artifact.internalMesh → s' a = s a := by
  unfold hemiOuterStage at h
  cases hg : (p.force || !(s Artifact.whiteMesh))
  · rw [if_neg (by simp [hg])] at h
    simp only [skipStep, Except.ok.injEq, Prod.mk.injEq] at h
    rw [← h.2]
    exact fun a _ _ _ _ => rfl
  · rw [if_pos hg] at h
    rcases hemiJoinBlock_ok_elim h with ⟨h1, h2, h3⟩ |
      ⟨hp, sh, hcg, hshape, hrep, hrh, hlh, hfr, hjok, hrest⟩
    · subst h2
      exact fun a _ _ _ _ => rfl
    · intro a ha1 ha2 ha3 ha4
      rcases hrest with ⟨hd, htr, hs'⟩ | ⟨hd, htr, hs'⟩ <;> subst hs'
      · rw [show setA (setA (applyEvent sh
              (Event.joinCorticalSurfaces (bsCbMesh1 p) p.check))
            Artifact.rightCerebrumMesh false) Artifact.leftCerebrumMesh false a
            = sh a from by simp [applyEvent, setA, ha1, ha2, ha3, ha4]]
        exact hfr a ha1 ha2
      · rw [show applyEvent sh (Event.joinCorticalSurfaces (bsCbMesh1 p) p.check) a
            = sh a from by simp [applyEvent, setA, ha3, ha4]]
        exact hfr a ha1 ha2

theorem recon_ok_decomp {p : ReconParams} {ork : Oracle} {debug : Nat}
    {s0 : FS} {tr : List Event} {s' : FS}
    (h : recon_neonatal_cortex p ork debug s0 = Except.ok (tr, s'))
    (hwp : (p.withWhiteMesh || p.withPialMesh) = true) :
    ∃ t1 s1 t2 s2 t3 s3 t4 s4 t5 s5 t6 s6 t7,
      brainStage p ork s0 = Except.ok (t1, s1) ∧
      bsCbStage p ork s1 = Except.ok (t2, s2) ∧
      hemiOuterStage p ork (ccOption s0) debug s2 = Except.ok (t3, s3) ∧
      whiteStage p ork (t1wOption s0) debug s3 = Except.ok (t4, s4) ∧
      cutWhiteStage p ork s4 = Except.ok (t5, s5) ∧
      pialStage p ork s5 = Except.ok (t6, s6) ∧
      cutPialStage p ork s6 = Except.ok (t7, s') ∧
      tr = t1 ++ (t2 ++ (t3 ++ (t4 ++ (t5 ++ (t6 ++ t7))))) := by
  unfold recon_neonatal_cortex at h
  rcases seqRun_ok_elim h with ⟨t1, s1, trA, hB, hA, htr⟩
  unfold bsCbPart at hA
  rcases seqRun_ok_elim hA with ⟨t2, s2, trB, hBs, hCp, htrA⟩
  unfold corticalPart at hCp
  rw [if_pos hwp] at hCp
  rcases seqRun_ok_elim hCp with ⟨t3, s3, trC, hH, hWp, htrB⟩
  unfold whitePart at hWp
  rcases seqRun_ok_elim hWp with ⟨t4, s4, trD, hW, hCw, htrC⟩
  unfold cutWhitePart at hCw
  rcases seqRun_ok_elim hCw with ⟨t5, s5, trE, hC, hPp, htrD⟩
  unfold pialPart at hPp
  rcases seqRun_ok_elim hPp with ⟨t6, s6, t7, hP, hCpial, htrE⟩
  exact ⟨t1, s1, t2, s2, t3, s3, t4, s4, t5, s5, t6, s6, t7,
    hB, hBs, hH, hW, hC, hP, hCpial,
    by rw [htr, htrA, htrB, htrC, htrD, htrE]⟩

theorem recon_ok_post {p : ReconParams} {ork : Oracle} {debug : Nat}
    {s0 : FS} {tr : List Event} {s' : FS}
    (h : recon_neonatal_cortex p ork debug s0 = Except.ok (tr, s')) :
    (p.withBrainMesh = true → s' Artifact.brainMesh = true) ∧
      (p.withBsCbMesh = true → s' Artifact.bsCbMesh = true) ∧
      ((p.withWhiteMesh || p.withPialMesh) = true →
        s' Artifact.whiteMesh = true ∧
        (p.cut = true → s' Artifact.rightWhiteMesh = true ∧
          s' Artifact.leftWhiteMesh = true) ∧
        (p.withPialMesh = true → s' Artifact.pialMesh = true) ∧
        (p.cut = true → p.withPialMesh = true →
          s' Artifact.rightPialMesh = true ∧ s' Artifact.leftPialMesh = true)) := by
  cases hwp : (p.withWhiteMesh || p.withPialMesh)
  · unfold recon_neonatal_cortex at h
    rcases seqRun_ok_elim h with ⟨t1, s1, trA, hB, hA, htr⟩
    unfold bsCbPart at hA
    rcases seqRun_ok_elim hA with ⟨t2, s2, trB, hBs, hCp, htrA⟩
    unfold corticalPart at hCp
    rw [if_neg (by simp [hwp])] at hCp
    simp only [skipStep, Except.ok.injEq, Prod.mk.injEq] at hCp
    obtain ⟨hbp, hbf⟩ := brainStage_post hB
    obtain ⟨hsp, hsf⟩ := bsCbStage_post hBs
    rw [← hCp.2]
    refine ⟨?_, hsp, ?_⟩
    · intro hx
      rw [hsf _ (by decide)]
      exact hbp hx
    · intro hx
      cases hx
  · obtain ⟨t1, s1, t2, s2, t3, s3, t4, s4, t5, s5, t6, s6, t7,
      hB, hBs, hH, hW, hC, hP, hCpial, -⟩ := recon_ok_decomp h hwp
    obtain ⟨hbp, hbf⟩ := brainStage_post hB
    obtain ⟨hsp, hsf⟩ := bsCbStage_post hBs
    have hhf := hemiOuter_frame hH
    obtain ⟨hwpost, hwf⟩ := whiteStage_post hW
    obtain ⟨hcwp, hcwf⟩ := cutWhiteStage_post hC
    obtain ⟨hpp, hpf⟩ := pialStage_post hP
    obtain ⟨hcpp, hcpf⟩ := cutPialStage_post hCpial
    refine ⟨?_, ?_, fun _ => ⟨?_, ?_, ?_, ?_⟩⟩
    · intro hx
      rw [hcpf _ (by decide) (by decide), hpf _ (by decide), hcwf _ (by decide) (by decide),
        hwf _ (by decide) (by decide), hhf _ (by decide) (by decide) (by decide) (by decide),
        hsf _ (by decide)]
      exact hbp hx
    · intro hx
      rw [hcpf _ (by decide) (by decide), hpf _ (by decide), hcwf _ (by decide) (by decide),
        hwf _ (by decide) (by decide), hhf _ (by decide) (by decide) (by decide) (by decide)]
      exact hsp hx
    · rw [hcpf _ (by decide) (by decide), hpf _ (by decide), hcwf _ (by decide) (by decide)]
      exact hwpost
    · intro hc
      constructor
      · rw [hcpf _ (by decide) (by decide), hpf _ (by decide)]
        exact (hcwp hc).1
      · rw [hcpf _ (by decide) (by decide), hpf _ (by decide)]
        exact (hcwp hc).2
    · intro hpi
      rw [hcpf _ (by decide) (by decide)]
      exact hpp hpi
    · intro hc hpi
      exact hcpp hc hpi

theorem recon_skip (p : ReconParams) (ork : Oracle) (debug : Nat) (s : FS)
    (hforce : p.force = false)
    (hb : p.withBrainMesh = true → s Artifact.brainMesh = true)
    (hbs : p.withBsCbMesh = true → s Artifact.bsCbMesh = true)
    (hw : (p.withWhiteMesh || p.withPialMesh) = true → s Artifact.whiteMesh = true)
    (hcw : (p.withWhiteMesh || p.withPialMesh) = true → p.cut = true →
      s Artifact.rightWhiteMesh = true ∧ s Artifact.leftWhiteMesh = true)
    (hp : (p.withWhiteMesh || p.withPialMesh) = true → p.withPialMesh = true →
      s Artifact.pialMesh = true)
    (hcp : (p.withWhiteMesh || p.withPialMesh) = true → p.cut = true →
      p.withPialMesh = true →
      s Artifact.rightPialMesh = true ∧ s Artifact.leftPialMesh = true) :
    recon_neonatal_cortex p ork debug s = Except.ok ([], s) := by
  have hbrain : brainStage p ork s = Except.ok ([], s) := by
    unfold brainStage
    refine optInvoke_skip ?_
    cases hwb : p.withBrainMesh
    · simp
    · simp [hforce, hb hwb]
  have hbscb : bsCbStage p ork s = Except.ok ([], s) := by
    unfold bsCbStage
    refine optInvoke_skip ?_
    cases hwb : p.withBsCbMesh
    · simp
    · simp [hforce, hbs hwb]
  unfold recon_neonatal_cortex
  rw [hbrain, seqRun_nil]
  unfold bsCbPart
  rw [hbscb, seqRun_nil]
  unfold corticalPart
  cases hwp : (p.withWhiteMesh || p.withPialMesh)
  · rw [if_neg (by decide)]
    rfl
  · rw [if_pos rfl]
    have hw1 : s Artifact.whiteMesh = true := hw hwp
    have hhemi : hemiOuterStage p ork (ccOption s) debug s = Except.ok ([], s) := by
      unfold hemiOuterStage
      rw [if_neg (by simp [hforce, hw1])]
      rfl
    rw [hhemi, seqRun_nil]
    unfold whitePart
    have hwhite : whiteStage p ork (t1wOption s) debug s = Except.ok ([], s) := by
      unfold whiteStage
      rw [if_neg (by simp [hforce, hw1])]
      rfl
    rw [hwhite, seqRun_nil]
    unfold cutWhitePart
    have hcut : cutWhiteStage p ork s = Except.ok ([], s) := by
      unfold cutWhiteStage
      refine optInvoke_skip ?_
      cases hc : p.cut
      · simp
      · obtain ⟨h1, h2⟩ := hcw hwp hc
        simp [hforce, h1, h2]
    rw [hcut, seqRun_nil]
    unfold pialPart
    have hpial : pialStage p ork s = Except.ok ([], s) := by
      unfold pialStage
      refine optInvoke_skip ?_
      cases hwpi : p.withPialMesh
      · simp
      · simp [hforce, hp hwp hwpi]
    rw [hpial, seqRun_nil]
    unfold cutPialStage
    refine optInvoke_skip ?_
    cases hc : p.cut
    · simp
    · cases hwpi : p.withPialMesh
      · simp
      · obtain ⟨h1, h2⟩ := hcp hwp hc hwpi
        simp [hforce, h1, h2]

theorem takeWhile_of_all {α : Type} (f : α → Bool) :
    ∀ l : List α, (∀ c ∈ l, f c = true) → l.takeWhile f = l
  | [], _ => rfl
  | a :: t, h => by
    have ha : f a = true := h a (List.mem_cons_self a t)
    have ht := takeWhile_of_all f t (fun c hc => h c (List.mem_cons_of_mem a hc))
    simp [List.takeWhile, ha, ht]

theorem dropWhile_of_all {α : Type} (f : α → Bool) :
    ∀ l : List α, (∀ c ∈ l, f c = true) → l.dropWhile f = []
  | [], _ => rfl
  | a :: t, h => by
    have ha : f a = true := h a (List.mem_cons_self a t)
    have ht := dropWhile_of_all f t (fun c hc => h c (List.mem_cons_of_mem a hc))
    simp [List.dropWhile, ha, ht]

theorem takeWhile_append_stop {α : Type} (f : α → Bool) :
    ∀ (l : List α) (x : α) (r : List α), (∀ c ∈ l, f c = true) → f x = false →
      (l ++ x :: r).takeWhile f = l ∧ (l ++ x :: r).dropWhile f = x :: r
  | [], x, r, _, hx => by simp [List.takeWhile, List.dropWhile, hx]
  | a :: t, x, r, h, hx => by
    have ha : f a = true := h a (List.mem_cons_self a t)
    have ih := takeWhile_append_stop f t x r
      (fun c hc => h c (List.mem_cons_of_mem a hc)) hx
    simp [List.takeWhile, List.dropWhile, ha, ih.1, ih.2]

theorem take_len_append {α : Type} : ∀ (l r : List α), (l ++ r).take l.length = l
  | [], _ => rfl
  | a :: t, r => by simp [take_len_append t r]

theorem drop_len_append {α : Type} : ∀ (l r : List α), (l ++ r).drop l.length = r
  | [], _ => rfl
  | a :: t, r => by simp [drop_len_append t r]

theorem pialPart_runOk (p : ReconParams) (s : FS) :
    runOk (pialPart p allOk s) = true := by
  unfold pialPart
  obtain ⟨t6, s6, hP⟩ : ∃ tr s', pialStage p allOk s = Except.ok (tr, s') := by
    unfold pialStage
    exact optInvoke_ok_intro rfl
  rw [hP, runOk_seqRun]
  obtain ⟨t7, s7, hC⟩ : ∃ tr s', cutPialStage p allOk s6 = Except.ok (tr, s') := by
    unfold cutPialStage
    exact optInvoke_ok_intro rfl
  rw [hC]
  rfl

theorem cutWhitePart_runOk (p : ReconParams) (s : FS) :
    runOk (cutWhitePart p allOk s) = true := by
  unfold cutWhitePart
  obtain ⟨t5, s5, hC⟩ : ∃ tr s', cutWhiteStage p allOk s = Except.ok (tr, s') := by
    unfold cutWhiteStage
    exact optInvoke_ok_intro rfl
  rw [hC, runOk_seqRun]
  exact pialPart_runOk p s5

theorem whitePart_runOk (p : ReconParams) (debug : Nat) (s0 s : FS)
    (hcer : (p.force || !(s Artifact.whiteMesh)) = true →
      s Artifact.cerebrumMesh = true) :
    runOk (whitePart p allOk debug s0 s) = true := by
  unfold whitePart
  obtain ⟨t4, s4, hW⟩ := whiteStage_ok_intro p allOk (t1wOption s0) debug s
    rfl hcer
  rw [hW, runOk_seqRun]
  exact cutWhitePart_runOk p s4

theorem corticalPart_runOk (p : ReconParams) (debug : Nat) (s0 s : FS) :
    runOk (corticalPart p allOk debug s0 s) = true := by
  unfold corticalPart
  cases hwp : (p.withWhiteMesh || p.withPialMesh)
  · rw [if_neg (by decide)]
    rfl
  · rw [if_pos rfl]
    obtain ⟨t3, s3, hH⟩ := hemiOuter_ok_intro p allOk (ccOption s0) debug s
      rfl rfl rfl
    rw [hH, runOk_seqRun]
    obtain ⟨-, -, hcer, hwfr⟩ := hemiOuter_ok_facts hH
    refine whitePart_runOk p debug s0 s3 ?_
    intro hx
    rw [hwfr] at hx
    exact hcer hx

theorem bsCbPart_runOk (p : ReconParams) (debug : Nat) (s0 s : FS) :
    runOk (bsCbPart p allOk debug s0 s) = true := by
  unfold bsCbPart
  obtain ⟨t2, s2, hB⟩ : ∃ tr s', bsCbStage p allOk s = Except.ok (tr, s') := by
    unfold bsCbStage
    exact optInvoke_ok_intro rfl
  rw [hB, runOk_seqRun]
  exact corticalPart_runOk p debug s0 s2

theorem recon_allOk_runOk (p : ReconParams) (debug : Nat) (s0 : FS) :
    runOk (recon_neonatal_cortex p allOk debug s0) = true := by
  unfold recon_neonatal_cortex
  obtain ⟨t1, s1, hB⟩ : ∃ tr s', brainStage p allOk s0 = Except.ok (tr, s') := by
    unfold brainStage
    exact optInvoke_ok_intro rfl
  rw [hB, runOk_seqRun]
  exact bsCbPart_runOk p debug s0 s1

theorem traceAll_mem {chk : FS → Event → Bool} :
    ∀ (tr : List Event) (s : FS), traceAll chk s tr = true →
      ∀ e ∈ tr, ∃ sx, chk sx e = true
  | [], s, h, e, he => absurd he (List.not_mem_nil e)
  | x :: rest, s, h, e, he => by
    simp only [traceAll, Bool.and_eq_true] at h
    rcases List.mem_cons.mp he with rfl | hm
    · exact ⟨s, h.1⟩
    · exact traceAll_mem rest (applyEvent s x) h.2 e hm

theorem invoke_fail {okFlag : Bool} {e : Event} {s : FS} (h : okFlag = false) :
    invoke okFlag e s = Except.error ([e], s) := by
  simp [invoke, h]

theorem noRm_of_shape {t : List Event} {e0 : Event}
    (hsh : t = [] ∨ t = [e0]) (h0 : isRemoveEvent e0 = false) :
    ∀ e ∈ t, isRemoveEvent e = false := by
  rcases hsh with h | h <;> subst h <;> intro e he
  · exact absurd he (List.not_mem_nil e)
  · rw [List.mem_singleton] at he
    subst he
    exact h0

theorem optInvoke_shape (gate okFlag : Bool) (e : Event) (s : FS) :
    resTrace (optInvoke gate okFlag e s) = [] ∨
      resTrace (optInvoke gate okFlag e s) = [e] := by
  cases gate
  · left; rfl
  · cases okFlag
    · right; rfl
    · right; rfl

theorem noRm_hp {cc : Option Artifact} {hp : List Event}
    (hsh : hp = [] ∨ hp = [Event.reconCorticalSurface Hemisphere.right cc] ∨
      hp = [Event.reconCorticalSurface Hemisphere.left cc] ∨
      hp = [Event.reconCorticalSurface Hemisphere.right cc,
            Event.reconCorticalSurface Hemisphere.left cc]) :
    ∀ e ∈ hp, isRemoveEvent e = false := by
  rcases hsh with h | h | h | h <;> subst h <;> intro e he
  · exact absurd he (List.not_mem_nil e)
  · rw [List.mem_singleton] at he; subst he; rfl
  · rw [List.mem_singleton] at he; subst he; rfl
  · rcases List.mem_cons.mp he with rfl | he2
    · rfl
    · rw [List.mem_singleton] at he2; subst he2; rfl

theorem whiteStage_shape_keep {p : ReconParams} {ork : Oracle}
    {t1w : Option Artifact} {debug : Nat} {s : FS} (hd : ¬ debug < 1) :
    resTrace (whiteStage p ork t1w debug s) = [] ∨
      resTrace (whiteStage p ork t1w debug s) =
        [Event.reconWhiteSurface t1w (bsCbMesh2 p) p.check] := by
  rcases hres : whiteStage p ork t1w debug s with ⟨t4, s4⟩ | ⟨t4, s4⟩
  · obtain ⟨-, htr, -⟩ := whiteStage_err_elim hres
    subst htr
    right; rfl
  · rcases whiteStage_ok_elim hres with ⟨h1, -, -⟩ | ⟨-, -, hcase⟩
    · subst h1; left; rfl
    · rcases hcase with ⟨hd1, -, -, -⟩ | ⟨-, htr, -⟩
      · exact absurd hd1 hd
      · subst htr; right; rfl

theorem hemiOuter_noRm_keep {p : ReconParams} {ork : Oracle}
    {cc : Option Artifact} {debug : Nat} {s : FS} (hd : ¬ debug < 1) :
    ∀ e ∈ resTrace (hemiOuterStage p ork cc debug s), isRemoveEvent e = false := by
  rcases hres : hemiOuterStage p ork cc debug s with ⟨t3, s3⟩ | ⟨t3, s3⟩ <;>
    (have hres2 := hres; unfold hemiOuterStage at hres2) <;>
    cases hg : (p.force || !(s Artifact.whiteMesh))
  · rw [if_neg (by simp [hg])] at hres2
    simp [skipStep] at hres2
  · rw [if_pos hg] at hres2
    obtain ⟨-, hcase⟩ := hemiJoinBlock_err_elim hres2
    rcases hcase with ⟨-, htr, -⟩ | ⟨tp, sp, hsh, -, -, htr, -⟩ |
      ⟨hp, sh, hshape, -, -, -, -, -, htr, -⟩ <;> subst htr
    · intro e he
      have he2 : e ∈ [Event.reconCorticalSurface Hemisphere.right cc] := he
      rw [List.mem_singleton] at he2
      subst he2
      rfl
    · intro e he
      have he2 : e ∈ tp ++ [Event.reconCorticalSurface Hemisphere.left cc] := he
      rcases List.mem_append.mp he2 with hm | hm
      · exact noRm_of_shape hsh rfl e hm
      · rw [List.mem_singleton] at hm; subst hm; rfl
    · intro e he
      have he2 : e ∈ hp ++
          [Event.joinCorticalSurfaces (bsCbMesh1 p) p.check] := he
      rcases List.mem_append.mp he2 with hm | hm
      · exact noRm_hp hshape e hm
      · rw [List.mem_singleton] at hm; subst hm; rfl
  · rw [if_neg (by simp [hg])] at hres2
    simp only [skipStep, Except.ok.injEq, Prod.mk.injEq] at hres2
    intro e he
    have he2 : e ∈ t3 := he
    rw [← hres2.1] at he2
    exact absurd he2 (List.not_mem_nil e)
  · rw [if_pos hg] at hres2
    rcases hemiJoinBlock_ok_elim hres2 with ⟨h1, -, -⟩ |
      ⟨hp, sh, -, hshape, -, -, -, -, -, hrest⟩
    · subst h1
      intro e he
      exact absurd (show e ∈ ([] : List Event) from he) (List.not_mem_nil e)
    · rcases hrest with ⟨hd1, -, -⟩ | ⟨-, htr, -⟩
      · exact absurd hd1 hd
      · subst htr
        intro e he
        have he2 : e ∈ hp ++
            [Event.joinCorticalSurfaces (bsCbMesh1 p) p.check] := he
        rcases List.mem_append.mp he2 with hm | hm
        · exact noRm_hp hshape e hm
        · rw [List.mem_singleton] at hm; subst hm; rfl

theorem notMemRm {t : List Event} {a : Artifact}
    (hall : ∀ e ∈ t, isRemoveEvent e = false) :
    Event.removeFile a ∉ t := by
  intro hmem
  have := hall _ hmem
  simp [isRemoveEvent] at this

theorem brainStage_noRm (p : ReconParams) (ork : Oracle) (s : FS) :
    ∀ e ∈ resTrace (brainStage p ork s), isRemoveEvent e = false := by
  unfold brainStage
  exact noRm_of_shape (optInvoke_shape _ _ _ _) rfl

theorem bsCbStage_noRm (p : ReconParams) (ork : Oracle) (s : FS) :
    ∀ e ∈ resTrace (bsCbStage p ork s), isRemoveEvent e = false := by
  unfold bsCbStage
  exact noRm_of_shape (optInvoke_shape _ _ _ _) rfl

theorem cutWhiteStage_noRm (p : ReconParams) (ork : Oracle) (s : FS) :
    ∀ e ∈ resTrace (cutWhiteStage p ork s), isRemoveEvent e = false := by
  unfold cutWhiteStage
  exact noRm_of_shape (optInvoke_shape _ _ _ _) rfl

theorem pialStage_noRm (p : ReconParams) (ork : Oracle) (s : FS) :
    ∀ e ∈ resTrace (pialStage p ork s), isRemoveEvent e = false := by
  unfold pialStage
  exact noRm_of_shape (optInvoke_shape _ _ _ _) rfl

theorem cutPialStage_noRm (p : ReconParams) (ork : Oracle) (s : FS) :
    ∀ e ∈ resTrace (cutPialStage p ork s), isRemoveEvent e = false := by
  unfold cutPialStage
  exact noRm_of_shape (optInvoke_shape _ _ _ _) rfl

theorem pialPart_noRm (p : ReconParams) (ork : Oracle) (s : FS) :
    ∀ e ∈ resTrace (pialPart p ork s), isRemoveEvent e = false := by
  unfold pialPart
  rcases hP : pialStage p ork s with ⟨t6, s6⟩ | ⟨t6, s6⟩
  · rw [resTrace_seqRun_of_err _ rfl]
    intro e he
    exact pialStage_noRm p ork s e (by rw [hP]; exact he)
  · rw [resTrace_seqRun_of_ok _ rfl]
    intro e he
    rcases List.mem_append.mp he with hm | hm
    · exact pialStage_noRm p ork s e (by rw [hP]; exact hm)
    · exact cutPialStage_noRm p ork s6 e hm

theorem cutWhitePart_noRm (p : ReconParams) (ork : Oracle) (s : FS) :
    ∀ e ∈ resTrace (cutWhitePart p ork s), isRemoveEvent e = false := by
  unfold cutWhitePart
  rcases hC : cutWhiteStage p ork s with ⟨t5, s5⟩ | ⟨t5, s5⟩
  · rw [resTrace_seqRun_of_err _ rfl]
    intro e he
    exact cutWhiteStage_noRm p ork s e (by rw [hC]; exact he)
  · rw [resTrace_seqRun_of_ok _ rfl]
    intro e he
    rcases List.mem_append.mp he with hm | hm
    · exact cutWhiteStage_noRm p ork s e (by rw [hC]; exact hm)
    · exact pialPart_noRm p ork s5 e hm

theorem whitePart_noRm (p : ReconParams) (ork : Oracle) (debug : Nat)
    (s0 s : FS) (hd : ¬ debug < 1) :
    ∀ e ∈ resTrace (whitePart p ork debug s0 s), isRemoveEvent e = false := by
  unfold whitePart
  rcases hW : whiteStage p ork (t1wOption s0) debug s with ⟨t4, s4⟩ | ⟨t4, s4⟩
  · rw [resTrace_seqRun_of_err _ rfl]
    intro e he
    exact noRm_of_shape (whiteStage_shape_keep hd) rfl e (by rw [hW]; exact he)
  · rw [resTrace_seqRun_of_ok _ rfl]
    intro e he
    rcases List.mem_append.mp he with hm | hm
    · exact noRm_of_shape (whiteStage_shape_keep hd) rfl e (by rw [hW]; exact hm)
    · exact cutWhitePart_noRm p ork s4 e hm

theorem corticalPart_noRm (p : ReconParams) (ork : Oracle) (debug : Nat)
    (s0 s : FS) (hd : ¬ debug < 1) :
    ∀ e ∈ resTrace (corticalPart p ork debug s0 s), isRemoveEvent e = false := by
  unfold corticalPart
  cases hwp : (p.withWhiteMesh || p.withPialMesh)
  · rw [if_neg (by decide)]
    intro e he
    exact absurd (show e ∈ ([] : List Event) from he) (List.not_mem_nil e)
  · rw [if_pos rfl]
    rcases hH : hemiOuterStage p ork (ccOption s0) debug s with ⟨t3, s3⟩ | ⟨t3, s3⟩
    · rw [resTrace_seqRun_of_err _ rfl]
      intro e he
      exact hemiOuter_noRm_keep hd e (by rw [hH]; exact he)
    · rw [resTrace_seqRun_of_ok _ rfl]
      intro e he
      rcases List.mem_append.mp he with hm | hm
      · exact hemiOuter_noRm_keep hd e (by rw [hH]; exact hm)
      · exact whitePart_noRm p ork debug s0 s3 hd e hm

theorem bsCbPart_noRm (p : ReconParams) (ork : Oracle) (debug : Nat)
    (s0 s : FS) (hd : ¬ debug < 1) :
    ∀ e ∈ resTrace (bsCbPart p ork debug s0 s), isRemoveEvent e = false := by
  unfold bsCbPart
  rcases hB : bsCbStage p ork s with ⟨t2, s2⟩ | ⟨t2, s2⟩
  · rw [resTrace_seqRun_of_err _ rfl]
    intro e he
    exact bsCbStage_noRm p ork s e (by rw [hB]; exact he)
  · rw [resTrace_seqRun_of_ok _ rfl]
    intro e he
    rcases List.mem_append.mp he with hm | hm
    · exact bsCbStage_noRm p ork s e (by rw [hB]; exact hm)
    · exact corticalPart_noRm p ork debug s0 s2 hd e hm

theorem runTrace_no_remove (p : ReconParams) (ork : Oracle) (debug : Nat)
    (s0 : FS) (hd : ¬ debug < 1) :
    ∀ e ∈ runTrace p ork debug s0, isRemoveEvent e = false := by
  rw [runTrace_eq]
  unfold recon_neonatal_cortex
  rcases hB : brainStage p ork s0 with ⟨t1, s1⟩ | ⟨t1, s1⟩
  · rw [resTrace_seqRun_of_err _ rfl]
    intro e he
    exact brainStage_noRm p ork s0 e (by rw [hB]; exact he)
  · rw [resTrace_seqRun_of_ok _ rfl]
    intro e he
    rcases List.mem_append.mp he with hm | hm
    · exact brainStage_noRm p ork s0 e (by rw [hB]; exact hm)
    · exact bsCbPart_noRm p ork debug s0 s1 hd e hm

theorem hemiOuter_no_cerebRm {p : ReconParams} {ork : Oracle}
    {cc : Option Artifact} {debug : Nat} {s : FS} {t3 : List Event} {s3 : FS}
    (h : hemiOuterStage p ork cc debug s = Except.ok (t3, s3)) :
    Event.removeFile Artifact.cerebrumMesh ∉ t3 := by
  have h2 := h
  unfold hemiOuterStage at h2
  cases hg : (p.force || !(s Artifact.whiteMesh))
  · rw [if_neg (by simp [hg])] at h2
    simp only [skipStep, Except.ok.injEq, Prod.mk.injEq] at h2
    rw [← h2.1]
    exact List.not_mem_nil _
  · rw [if_pos hg] at h2
    rcases hemiJoinBlock_ok_elim h2 with ⟨h1, -, -⟩ |
      ⟨hp, sh, -, hshape, -, -, -, -, -, hrest⟩
    · subst h1
      exact List.not_mem_nil _
    · rcases hrest with ⟨-, htr, -⟩ | ⟨-, htr, -⟩ <;> subst htr <;> intro hmem
      · rcases List.mem_append.mp hmem with hm | hm
        · have := noRm_hp hshape _ hm
          simp [isRemoveEvent] at this
        · simp at hm
      · rcases List.mem_append.mp hmem with hm | hm
        · have := noRm_hp hshape _ hm
          simp [isRemoveEvent] at this
        · simp at hm

theorem recon_cleanup_debug0 {p : ReconParams} {ork : Oracle} {s0 : FS}
    {tr : List Event} {s' : FS}
    (h : recon_neonatal_cortex p ork 0 s0 = Except.ok (tr, s'))
    (hwp : (p.withWhiteMesh || p.withPialMesh) = true)
    (hwg : (p.force || !(s0 Artifact.whiteMesh)) = true)
    (hcg : (p.force || !(s0 Artifact.cerebrumMesh)) = true) :
    (∃ pre post, tr = pre ++
      Event.joinCorticalSurfaces (bsCbMesh1 p) p.check ::
      Event.removeFile Artifact.rightCerebrumMesh ::
      Event.removeFile Artifact.leftCerebrumMesh :: post) ∧
    (∃ pre post, tr = pre ++
      Event.reconWhiteSurface (t1wOption s0) (bsCbMesh2 p) p.check ::
      Event.removeFile Artifact.cerebrumMesh :: post) := by
  obtain ⟨t1, s1, t2, s2, t3, s3, t4, s4, t5, s5, t6, s6, t7,
    hB, hBs, hH, hW, hC, hP, hCp, htr⟩ := recon_ok_decomp h hwp
  have hw2 : s2 Artifact.whiteMesh = s0 Artifact.whiteMesh := by
    rw [(bsCbStage_post hBs).2 _ (by decide), (brainStage_post hB).2 _ (by decide)]
  have hc2 : s2 Artifact.cerebrumMesh = s0 Artifact.cerebrumMesh := by
    rw [(bsCbStage_post hBs).2 _ (by decide), (brainStage_post hB).2 _ (by decide)]
  have hg2 : (p.force || !(s2 Artifact.whiteMesh)) = true := by
    rw [hw2]; exact hwg
  have hH2 := hH
  unfold hemiOuterStage at hH2
  rw [if_pos hg2] at hH2
  rcases hemiJoinBlock_ok_elim hH2 with ⟨-, -, h3⟩ |
    ⟨hp, sh, -, hshape, hrep, -, -, -, -, hrest⟩
  · rw [hc2] at h3
    rw [h3] at hcg
    cases hcg
  · rcases hrest with ⟨-, htr3, -⟩ | ⟨hd1, -, -⟩
    · subst htr3
      have hw3 : s3 Artifact.whiteMesh = s0 Artifact.whiteMesh := by
        rw [hemiOuter_frame hH _ (by decide) (by decide) (by decide) (by decide), hw2]
      have hg3 : (p.force || !(s3 Artifact.whiteMesh)) = true := by
        rw [hw3]; exact hwg
      rcases whiteStage_ok_elim hW with ⟨-, -, h3w⟩ | ⟨-, -, hcase⟩
      · rw [h3w] at hg3
        cases hg3
      · rcases hcase with ⟨-, -, htr4, -⟩ | ⟨hd4, -, -⟩
        · subst htr4
          constructor
          · refine ⟨t1 ++ (t2 ++ hp),
              [Event.reconWhiteSurface (t1wOption s0) (bsCbMesh2 p) p.check,
               Event.removeFile Artifact.cerebrumMesh] ++ (t5 ++ (t6 ++ t7)), ?_⟩
            rw [htr]
            simp [List.append_assoc]
          · refine ⟨t1 ++ (t2 ++ (hp ++
              [Event.joinCorticalSurfaces (bsCbMesh1 p) p.check,
               Event.removeFile Artifact.rightCerebrumMesh,
               Event.removeFile Artifact.leftCerebrumMesh])),
              t5 ++ (t6 ++ t7), ?_⟩
            rw [htr]
            simp [List.append_assoc]
        · exact absurd (show (0 : Nat) < 1 from by decide) hd4
    · exact absurd (show (0 : Nat) < 1 from by decide) hd1

theorem recon_keep_intermediates {p : ReconParams} {ork : Oracle} {debug : Nat}
    {s0 : FS} {tr : List Event} {s' : FS}
    (hd : ¬ debug < 1)
    (h : recon_neonatal_cortex p ork debug s0 = Except.ok (tr, s'))
    (hwp : (p.withWhiteMesh || p.withPialMesh) = true)
    (hwg : (p.force || !(s0 Artifact.whiteMesh)) = true)
    (hcg : (p.force || !(s0 Artifact.cerebrumMesh)) = true) :
    s' Artifact.rightCerebrumMesh = true ∧ s' Artifact.leftCerebrumMesh = true ∧
      s' Artifact.cerebrumMesh = true := by
  obtain ⟨t1, s1, t2, s2, t3, s3, t4, s4, t5, s5, t6, s6, t7,
    hB, hBs, hH, hW, hC, hP, hCp, htr⟩ := recon_ok_decomp h hwp
  have hw2 : s2 Artifact.whiteMesh = s0 Artifact.whiteMesh := by
    rw [(bsCbStage_post hBs).2 _ (by decide), (brainStage_post hB).2 _ (by decide)]
  have hc2 : s2 Artifact.cerebrumMesh = s0 Artifact.cerebrumMesh := by
    rw [(bsCbStage_post hBs).2 _ (by decide), (brainStage_post hB).2 _ (by decide)]
  have hg2 : (p.force || !(s2 Artifact.whiteMesh)) = true := by
    rw [hw2]; exact hwg
  have hH2 := hH
  unfold hemiOuterStage at hH2
  rw [if_pos hg2] at hH2
  rcases hemiJoinBlock_ok_elim hH2 with ⟨-, -, h3⟩ |
    ⟨hp, sh, -, hshape, hrep, hrh, hlh, -, -, hrest⟩
  · rw [hc2] at h3
    rw [h3] at hcg
    cases hcg
  · rcases hrest with ⟨hd1, -, -⟩ | ⟨-, -, hs3⟩
    · exact absurd hd1 hd
    · have h3rh : s3 Artifact.rightCerebrumMesh = true := by
        rw [hs3]
        simpa [applyEvent, setA] using hrh
      have h3lh : s3 Artifact.leftCerebrumMesh = true := by
        rw [hs3]
        simpa [applyEvent, setA] using hlh
      have h3cer : s3 Artifact.cerebrumMesh = true := by
        rw [hs3]
        simp [applyEvent, setA]
      have hw3 : s3 Artifact.whiteMesh = s0 Artifact.whiteMesh := by
        rw [hemiOuter_frame hH _ (by decide) (by decide) (by decide) (by decide), hw2]
      have hg3 : (p.force || !(s3 Artifact.whiteMesh)) = true := by
        rw [hw3]; exact hwg
      rcases whiteStage_ok_elim hW with ⟨-, -, h3w⟩ | ⟨-, -, hcase⟩
      · rw [h3w] at hg3
        cases hg3
      · rcases hcase with ⟨hd4, -, -, -⟩ | ⟨-, -, hs4⟩
        · exact absurd hd4 hd
        · have h4 : s4 Artifact.rightCerebrumMesh = true ∧
              s4 Artifact.leftCerebrumMesh = true ∧
              s4 Artifact.cerebrumMesh = true := by
            rw [hs4]
            refine ⟨?_, ?_, ?_⟩ <;> simp [applyEvent, setA, h3rh, h3lh, h3cer]
          obtain ⟨hcwp, hcwf⟩ := cutWhiteStage_post hC
          obtain ⟨hpp, hpf⟩ := pialStage_post hP
          obtain ⟨hcpp, hcpf⟩ := cutPialStage_post hCp
          refine ⟨?_, ?_, ?_⟩ <;>
            rw [hcpf _ (by decide) (by decide), hpf _ (by decide),
              hcwf _ (by decide) (by decide)]
          · exact h4.1
          · exact h4.2.1
          · exact h4.2.2

theorem recon_joinFail {p : ReconParams} {ork : Oracle} {debug : Nat} {s0 : FS}
    (hbr : ork.brainOk = true) (hbs : ork.bsCbOk = true)
    (hr : ork.rightCorticalOk = true) (hl : ork.leftCorticalOk = true)
    (hj : ork.joinOk = false)
    (hwp : (p.withWhiteMesh || p.withPialMesh) = true)
    (hwg : (p.force || !(s0 Artifact.whiteMesh)) = true)
    (hcg : (p.force || !(s0 Artifact.cerebrumMesh)) = true) :
    runOk (recon_neonatal_cortex p ork debug s0) = false ∧
      resFS (recon_neonatal_cortex p ork debug s0) Artifact.rightCerebrumMesh = true ∧
      resFS (recon_neonatal_cortex p ork debug s0) Artifact.leftCerebrumMesh = true ∧
      (∀ e ∈ runTrace p ork debug s0, isRemoveEvent e = false) := by
  obtain ⟨t1, s1, hB⟩ : ∃ tr s', brainStage p ork s0 = Except.ok (tr, s') := by
    unfold brainStage
    exact optInvoke_ok_intro hbr
  obtain ⟨t2, s2, hBs⟩ : ∃ tr s', bsCbStage p ork s1 = Except.ok (tr, s') := by
    unfold bsCbStage
    exact optInvoke_ok_intro hbs
  have hw2 : s2 Artifact.whiteMesh = s0 Artifact.whiteMesh := by
    rw [(bsCbStage_post hBs).2 _ (by decide), (brainStage_post hB).2 _ (by decide)]
  have hc2 : s2 Artifact.cerebrumMesh = s0 Artifact.cerebrumMesh := by
    rw [(bsCbStage_post hBs).2 _ (by decide), (brainStage_post hB).2 _ (by decide)]
  have hg2 : (p.force || !(s2 Artifact.whiteMesh)) = true := by
    rw [hw2]; exact hwg
  have hcg2 : (p.force || !(s2 Artifact.cerebrumMesh)) = true := by
    rw [hc2]; exact hcg
  rcases hhb : hemiJoinBlock p ork (ccOption s0) debug s2 with ⟨t3, s3⟩ | ⟨t3, s3⟩
  · obtain ⟨-, hcase⟩ := hemiJoinBlock_err_elim hhb
    rcases hcase with ⟨h1, -, -⟩ | ⟨tp, sp, -, -, h1, -, -⟩ |
      ⟨hp, sh, hshape, -, hrh, hlh, -, -, htr3, hs3⟩
    · rw [hr] at h1; cases h1
    · rw [hl] at h1; cases h1
    · have hHerr : hemiOuterStage p ork (ccOption s0) debug s2 =
          Except.error (t3, s3) := by
        unfold hemiOuterStage
        rw [if_pos hg2]
        exact hhb
      have hCpErr : corticalPart p ork debug s0 s2 = Except.error (t3, s3) := by
        unfold corticalPart
        rw [if_pos hwp, hHerr]
        exact seqRun_err _ _
      have hBsP : bsCbPart p ork debug s0 s1 = Except.error (t2 ++ t3, s3) := by
        unfold bsCbPart
        rw [hBs]
        exact seqRun_ok_err t2 hCpErr
      have hrec : recon_neonatal_cortex p ork debug s0 =
          Except.error (t1 ++ (t2 ++ t3), s3) := by
        unfold recon_neonatal_cortex
        rw [hB]
        exact seqRun_ok_err t1 hBsP
      refine ⟨by rw [hrec]; rfl, ?_, ?_, ?_⟩
      · rw [hrec]
        show s3 Artifact.rightCerebrumMesh = true
        rw [hs3]
        exact hrh
      · rw [hrec]
        show s3 Artifact.leftCerebrumMesh = true
        rw [hs3]
        exact hlh
      · intro e he
        rw [runTrace_eq, hrec] at he
        have he2 : e ∈ t1 ++ (t2 ++ t3) := he
        rcases List.mem_append.mp he2 with hm | hm
        · exact brainStage_noRm p ork s0 e (by rw [hB]; exact hm)
        · rcases List.mem_append.mp hm with hm2 | hm2
          · exact bsCbStage_noRm p ork s1 e (by rw [hBs]; exact hm2)
          · rw [htr3] at hm2
            rcases List.mem_append.mp hm2 with hm3 | hm3
            · exact noRm_hp hshape e hm3
            · rw [List.mem_singleton] at hm3
              subst hm3
              rfl
  · rcases hemiJoinBlock_ok_elim hhb with ⟨-, -, h3⟩ |
      ⟨hp, sh, -, -, -, -, -, -, hjok, -⟩
    · rw [h3] at hcg2
      cases hcg2
    · rw [hj] at hjok
      cases hjok

theorem recon_whiteFail {p : ReconParams} {ork : Oracle} {debug : Nat} {s0 : FS}
    (hbr : ork.brainOk = true) (hbs : ork.bsCbOk = true)
    (hr : ork.rightCorticalOk = true) (hl : ork.leftCorticalOk = true)
    (hj : ork.joinOk = true) (hwf : ork.whiteOk = false)
    (hwp : (p.withWhiteMesh || p.withPialMesh) = true)
    (hwg : (p.force || !(s0 Artifact.whiteMesh)) = true) :
    runOk (recon_neonatal_cortex p ork debug s0) = false ∧
      resFS (recon_neonatal_cortex p ork debug s0) Artifact.cerebrumMesh = true ∧
      Event.removeFile Artifact.cerebrumMesh ∉ runTrace p ork debug s0 := by
  obtain ⟨t1, s1, hB⟩ : ∃ tr s', brainStage p ork s0 = Except.ok (tr, s') := by
    unfold brainStage
    exact optInvoke_ok_intro hbr
  obtain ⟨t2, s2, hBs⟩ : ∃ tr s', bsCbStage p ork s1 = Except.ok (tr, s') := by
    unfold bsCbStage
    exact optInvoke_ok_intro hbs
  have hw2 : s2 Artifact.whiteMesh = s0 Artifact.whiteMesh := by
    rw [(bsCbStage_post hBs).2 _ (by decide), (brainStage_post hB).2 _ (by decide)]
  have hg2 : (p.force || !(s2 Artifact.whiteMesh)) = true := by
    rw [hw2]; exact hwg
  obtain ⟨t3, s3, hH⟩ := hemiOuter_ok_intro p ork (ccOption s0) debug s2
    hr hl hj
  obtain ⟨-, -, hcer3, hwfr3⟩ := hemiOuter_ok_facts hH
  have hcer : s3 Artifact.cerebrumMesh = true := hcer3 hg2
  have hg3 : (p.force || !(s3 Artifact.whiteMesh)) = true := by
    rw [hwfr3]; exact hg2
  have hWerr : whiteStage p ork (t1wOption s0) debug s3 =
      Except.error ([Event.reconWhiteSurface (t1wOption s0) (bsCbMesh2 p) p.check],
        s3) := by
    unfold whiteStage
    rw [if_pos hg3, invoke_fail hwf]
    exact seqRun_err _ _
  have hWpErr : whitePart p ork debug s0 s3 =
      Except.error ([Event.reconWhiteSurface (t1wOption s0) (bsCbMesh2 p) p.check],
        s3) := by
    unfold whitePart
    rw [hWerr]
    exact seqRun_err _ _
  have hCpErr : corticalPart p ork debug s0 s2 =
      Except.error (t3 ++
        [Event.reconWhiteSurface (t1wOption s0) (bsCbMesh2 p) p.check], s3) := by
    unfold corticalPart
    rw [if_pos hwp, hH]
    exact seqRun_ok_err t3 hWpErr
  have hBsP : bsCbPart p ork debug s0 s1 =
      Except.error (t2 ++ (t3 ++
        [Event.reconWhiteSurface (t1wOption s0) (bsCbMesh2 p) p.check]), s3) := by
    unfold bsCbPart
    rw [hBs]
    exact seqRun_ok_err t2 hCpErr
  have hrec : recon_neonatal_cortex p ork debug s0 =
      Except.error (t1 ++ (t2 ++ (t3 ++
        [Event.reconWhiteSurface (t1wOption s0) (bsCbMesh2 p) p.check])), s3) := by
    unfold recon_neonatal_cortex
    rw [hB]
    exact seqRun_ok_err t1 hBsP
  refine ⟨by rw [hrec]; rfl, ?_, ?_⟩
  · rw [hrec]
    exact hcer
  · intro hmem
    rw [runTrace_eq, hrec] at hmem
    have hm0 : Event.removeFile Artifact.cerebrumMesh ∈
        t1 ++ (t2 ++ (t3 ++
          [Event.reconWhiteSurface (t1wOption s0) (bsCbMesh2 p) p.check])) := hmem
    rcases List.mem_append.mp hm0 with hm | hm
    · have := brainStage_noRm p ork s0 _ (by rw [hB]; exact hm)
      simp [isRemoveEvent] at this
    · rcases List.mem_append.mp hm with hm2 | hm2
      · have := bsCbStage_noRm p ork s1 _ (by rw [hBs]; exact hm2)
        simp [isRemoveEvent] at this
      · rcases List.mem_append.mp hm2 with hm3 | hm3
        · exact hemiOuter_no_cerebRm hH hm3
        · simp at hm3

/-! ## C7: cleanup policy for intermediate meshes -/

/-- C7: at retention level 0 the two per-hemisphere meshes are removed
immediately after a successful join (the next two trace entries) and the
joined cerebrum mesh immediately after successful white-surface fitting;
when the consuming operation raises instead, the inputs are not deleted and
are still on disk in the aborted state; at retention level ≥ 1 no
`os.remove` happens at all and the three intermediates are still on disk
after a successful run. -/
theorem C7_cleanup_policy :
    ∀ (p : ReconParams) (ork : Oracle) (debug : Nat) (s0 : FS),
      (∀ tr s', debug = 0 →
        recon_neonatal_cortex p ork debug s0 = Except.ok (tr, s') →
        (p.withWhiteMesh || p.withPialMesh) = true →
        (p.force || !(s0 Artifact.whiteMesh)) = true →
        (p.force || !(s0 Artifact.cerebrumMesh)) = true →
        (∃ pre post, tr = pre ++
          Event.joinCorticalSurfaces (bsCbMesh1 p) p.check ::
          Event.removeFile Artifact.rightCerebrumMesh ::
          Event.removeFile Artifact.leftCerebrumMesh :: post) ∧
        (∃ pre post, tr = pre ++
          Event.reconWhiteSurface (t1wOption s0) (bsCbMesh2 p) p.check ::
          Event.removeFile Artifact.cerebrumMesh :: post)) ∧
      (ork.brainOk = true → ork.bsCbOk = true → ork.rightCorticalOk = true →
        ork.leftCorticalOk = true → ork.joinOk = false →
        (p.withWhiteMesh || p.withPialMesh) = true →
        (p.force || !(s0 Artifact.whiteMesh)) = true →
        (p.force || !(s0 Artifact.cerebrumMesh)) = true →
        runOk (recon_neonatal_cortex p ork debug s0) = false ∧
        resFS (recon_neonatal_cortex p ork debug s0)
          Artifact.rightCerebrumMesh = true ∧
        resFS (recon_neonatal_cortex p ork debug s0)
          Artifact.leftCerebrumMesh = true ∧
        (∀ e ∈ runTrace p ork debug s0, isRemoveEvent e = false)) ∧
      (ork.brainOk = true → ork.bsCbOk = true → ork.rightCorticalOk = true →
        ork.leftCorticalOk = true → ork.joinOk = true → ork.whiteOk = false →
        (p.withWhiteMesh || p.withPialMesh) = true →
        (p.force || !(s0 Artifact.whiteMesh)) = true →
        runOk (recon_neonatal_cortex p ork debug s0) = false ∧
        resFS (recon_neonatal_cortex p ork debug s0)
          Artifact.cerebrumMesh = true ∧
        Event.removeFile Artifact.cerebrumMesh ∉ runTrace p ork debug s0) ∧
      (1 ≤ debug →
        (∀ e ∈ runTrace p ork debug s0, isRemoveEvent e = false) ∧
        (∀ tr s', recon_neonatal_cortex p ork debug s0 = Except.ok (tr, s') →
          (p.withWhiteMesh || p.withPialMesh) = true →
          (p.force || !(s0 Artifact.whiteMesh)) = true →
          (p.force || !(s0 Artifact.cerebrumMesh)) = true →
          s' Artifact.rightCerebrumMesh = true ∧
          s' Artifact.leftCerebrumMesh = true ∧
          s' Artifact.cerebrumMesh = true)) := by
  intro p ork debug s0
  refine ⟨?_, ?_, ?_, ?_⟩
  · intro tr s' hd h hwp hwg hcg
    subst hd
    exact recon_cleanup_debug0 h hwp hwg hcg
  · intro h1 h2 h3 h4 h5 h6 h7 h8
    exact recon_joinFail h1 h2 h3 h4 h5 h6 h7 h8
  · intro h1 h2 h3 h4 h5 h6 h7 h8
    exact recon_whiteFail h1 h2 h3 h4 h5 h6 h7 h8
  · intro hd
    have hd2 : ¬ debug < 1 := by omega
    exact ⟨runTrace_no_remove p ork debug s0 hd2,
      fun tr s' h hwp hwg hcg => recon_keep_intermediates hd2 h hwp hwg hcg⟩

/-- Witness for C7: the default run at retention 0, the same run with a
raising join, and the run at retention 1. -/
theorem C7_witness :
    (∃ pre post, demoTrace = pre ++
        Event.joinCorticalSurfaces (bsCbMesh1 defaultReconParams)
          defaultReconParams.check ::
        Event.removeFile Artifact.rightCerebrumMesh ::
        Event.removeFile Artifact.leftCerebrumMesh :: post) ∧
    (∃ pre post, demoTrace = pre ++
        Event.reconWhiteSurface (t1wOption emptyFS)
          (bsCbMesh2 defaultReconParams) defaultReconParams.check ::
        Event.removeFile Artifact.cerebrumMesh :: post) ∧
    runOk (recon_neonatal_cortex defaultReconParams failJoinOracle 0 emptyFS)
      = false ∧
    resFS (recon_neonatal_cortex defaultReconParams failJoinOracle 0 emptyFS)
      Artifact.rightCerebrumMesh = true ∧
    (∀ e ∈ runTrace defaultReconParams allOk 1 emptyFS,
      isRemoveEvent e = false) := by
  have h1 := (C7_cleanup_policy defaultReconParams allOk 0 emptyFS).1
    demoTrace demoFS rfl rfl rfl rfl rfl
  have h2 := (C7_cleanup_policy defaultReconParams failJoinOracle 0 emptyFS).2.1
    rfl rfl rfl rfl rfl rfl rfl rfl
  have h4 := (C7_cleanup_policy defaultReconParams allOk 1 emptyFS).2.2.2
    (by decide)
  exact ⟨h1.1, h1.2, h2.1, h2.2.1, h4.1⟩

/-! ## C3: idempotence of a second run -/

/-- C3: after a successful run with `force=false`, a second run of the
Pipeline Executor over the resulting session directory invokes no external
stage operation (empty trace) and leaves every artifact unchanged (the final
state is returned as-is), even though the per-hemisphere and cerebrum
intermediates were deleted at retention level 0: every stage's
output-exists-and-not-forced skip condition holds. -/
theorem C3_second_run_skips
    (p : ReconParams) (ork : Oracle) (debug : Nat) (s0 : FS)
    (tr1 : List Event) (s1 : FS)
    (hforce : p.force = false)
    (h1 : recon_neonatal_cortex p ork debug s0 = Except.ok (tr1, s1)) :
    recon_neonatal_cortex p ork debug s1 = Except.ok ([], s1) := by
  obtain ⟨hb, hbs, hwp⟩ := recon_ok_post h1
  refine recon_skip p ork debug s1 hforce hb hbs ?_ ?_ ?_ ?_
  · intro hx
    exact (hwp hx).1
  · intro hx hc
    exact (hwp hx).2.1 hc
  · intro hx hpi
    exact (hwp hx).2.2.1 hpi
  · intro hx hc hpi
    exact (hwp hx).2.2.2 hc hpi

/-- Witness for C3: the default-parameter run from an empty session directory
at retention level 0 (which deletes the three intermediates), replayed. -/
theorem C3_witness :
    defaultReconParams.force = false ∧
    recon_neonatal_cortex defaultReconParams allOk 0 emptyFS =
      Except.ok (demoTrace, demoFS) ∧
    recon_neonatal_cortex defaultReconParams allOk 0 demoFS =
      Except.ok ([], demoFS) :=
  ⟨rfl, rfl,
    C3_second_run_skips defaultReconParams allOk 0 emptyFS demoTrace demoFS rfl rfl⟩

/-! ## C4: dependency ordering of stage invocations -/

/-- C4: in every execution (any parameters, oracle, retention level and
initial session directory), the trace respects the data dependencies:
whenever `join_cortical_surfaces` is invoked both per-hemisphere meshes
exist at that moment, whenever white-surface fitting is invoked the joined
cerebrum mesh exists, and whenever pial-surface fitting is invoked the white
mesh exists. -/
theorem C4_dependency_ordering :
    ∀ (p : ReconParams) (ork : Oracle) (debug : Nat) (s0 : FS),
      depChecks s0 (runTrace p ork debug s0) = true ∧
      ∀ (pre post : List Event) (e : Event),
        runTrace p ork debug s0 = pre ++ e :: post →
        (∀ m c, e = Event.joinCorticalSurfaces m c →
          replayFS s0 pre Artifact.rightCerebrumMesh = true ∧
          replayFS s0 pre Artifact.leftCerebrumMesh = true) ∧
        (∀ t g c, e = Event.reconWhiteSurface t g c →
          replayFS s0 pre Artifact.cerebrumMesh = true) ∧
        (∀ g o c, e = Event.reconPialSurface g o c →
          replayFS s0 pre Artifact.whiteMesh = true) := by
  intro p ork debug s0
  have hdep : depChecks s0 (runTrace p ork debug s0) = true := by
    unfold depChecks
    exact traceAll_mono (fun s e h => by
        unfold chkAll at h
        simp only [Bool.and_eq_true] at h
        exact h.1) _ _ (recon_chkAll p ork debug s0)
  refine ⟨hdep, ?_⟩
  intro pre post e htr
  unfold depChecks at hdep
  rw [htr, traceAll_append] at hdep
  simp only [Bool.and_eq_true] at hdep
  have h2 := hdep.2
  simp only [traceAll, Bool.and_eq_true] at h2
  have hde := h2.1
  refine ⟨?_, ?_, ?_⟩
  · intro m c he
    subst he
    simp only [depOkEvent, Bool.and_eq_true] at hde
    exact hde
  · intro t g c he
    subst he
    simpa [depOkEvent] using hde
  · intro g o c he
    subst he
    simpa [depOkEvent] using hde

/-- Witness for C4 at the concrete default run: the join event is preceded by
states in which both hemisphere meshes exist. -/
theorem C4_witness :
    runTrace defaultReconParams allOk 0 emptyFS =
      [Event.reconBsCbSurface Artifact.regionsMask,
       Event.reconCorticalSurface Hemisphere.right none,
       Event.reconCorticalSurface Hemisphere.left none] ++
      Event.joinCorticalSurfaces none true ::
        [Event.removeFile Artifact.rightCerebrumMesh,
         Event.removeFile Artifact.leftCerebrumMesh,
         Event.reconWhiteSurface none (some Artifact.bsCbMesh) true,
         Event.removeFile Artifact.cerebrumMesh,
         Event.splitSurfaces Artifact.whiteMesh Artifact.rightWhiteMesh
           Artifact.leftWhiteMesh,
         Event.reconPialSurface (some Artifact.bsCbMesh) false true,
         Event.splitSurfaces Artifact.pialMesh Artifact.rightPialMesh
           Artifact.leftPialMesh] ∧
    (replayFS emptyFS
        [Event.reconBsCbSurface Artifact.regionsMask,
         Event.reconCorticalSurface Hemisphere.right none,
         Event.reconCorticalSurface Hemisphere.left none]
        Artifact.rightCerebrumMesh = true ∧
      replayFS emptyFS
        [Event.reconBsCbSurface Artifact.regionsMask,
         Event.reconCorticalSurface Hemisphere.right none,
         Event.reconCorticalSurface Hemisphere.left none]
        Artifact.leftCerebrumMesh = true) :=
  ⟨rfl,
    ((C4_dependency_ordering defaultReconParams allOk 0 emptyFS).2
        [Event.reconBsCbSurface Artifact.regionsMask,
         Event.reconCorticalSurface Hemisphere.right none,
         Event.reconCorticalSurface Hemisphere.left none]
        [Event.removeFile Artifact.rightCerebrumMesh,
         Event.removeFile Artifact.leftCerebrumMesh,
         Event.reconWhiteSurface none (some Artifact.bsCbMesh) true,
         Event.removeFile Artifact.cerebrumMesh,
         Event.splitSurfaces Artifact.whiteMesh Artifact.rightWhiteMesh
           Artifact.leftWhiteMesh,
         Event.reconPialSurface (some Artifact.bsCbMesh) false true,
         Event.splitSurfaces Artifact.pialMesh Artifact.rightPialMesh
           Artifact.leftPialMesh]
        (Event.joinCorticalSurfaces none true) rfl).1
      none true rfl⟩

/-! ## C6: merge-mesh versus guide-mesh mutual exclusion -/

/-- C6: every join invocation receives `bs_cb_mesh_1` as merge mesh and every
white/pial invocation receives `bs_cb_mesh_2` as guide mesh; with the bs+cb
mesh enabled, `join_bs_cb=true` makes the merge mesh the bs+cb mesh and the
guide mesh null, `join_bs_cb=false` the reverse; the two are never both
non-null. -/
theorem C6_merge_guide_exclusive :
    ∀ (p : ReconParams) (ork : Oracle) (debug : Nat) (s0 : FS),
      (∀ e ∈ runTrace p ork debug s0,
        (∀ m c, e = Event.joinCorticalSurfaces m c → m = bsCbMesh1 p) ∧
        (∀ t g c, e = Event.reconWhiteSurface t g c → g = bsCbMesh2 p) ∧
        (∀ g o c, e = Event.reconPialSurface g o c → g = bsCbMesh2 p)) ∧
      (p.withBsCbMesh = true →
        (p.joinBsCbMesh = true →
          bsCbMesh1 p = some Artifact.bsCbMesh ∧ bsCbMesh2 p = none) ∧
        (p.joinBsCbMesh = false →
          bsCbMesh1 p = none ∧ bsCbMesh2 p = some Artifact.bsCbMesh)) ∧
      (bsCbMesh1 p = none ∨ bsCbMesh2 p = none) := by
  intro p ork debug s0
  refine ⟨?_, ?_, ?_⟩
  · intro e he
    obtain ⟨sx, hchk⟩ := traceAll_mem _ _ (recon_chkAll p ork debug s0) e he
    unfold chkAll at hchk
    simp only [Bool.and_eq_true] at hchk
    have hargs := hchk.2
    refine ⟨?_, ?_, ?_⟩
    · intro m c he2
      subst he2
      simpa [eventArgsOk] using hargs
    · intro t g c he2
      subst he2
      simp only [eventArgsOk, Bool.and_eq_true, decide_eq_true_eq] at hargs
      exact hargs.2
    · intro g o c he2
      subst he2
      simpa [eventArgsOk] using hargs
  · intro hbscb
    constructor
    · intro hj
      constructor <;> simp [bsCbMesh1, bsCbMesh2, hbscb, hj]
    · intro hj
      constructor <;> simp [bsCbMesh1, bsCbMesh2, hbscb, hj]
  · cases hb : (p.withBsCbMesh && p.joinBsCbMesh)
    · left
      simp [bsCbMesh1, hb]
    · right
      simp [bsCbMesh2, hb]

/-- Witness for C6 at the default run (bs+cb enabled, `join_bs_cb=false`). -/
theorem C6_witness :
    (Event.joinCorticalSurfaces none true ∈
      runTrace defaultReconParams allOk 0 emptyFS) ∧
    (none : Option Artifact) = bsCbMesh1 defaultReconParams ∧
    defaultReconParams.withBsCbMesh = true ∧
    (bsCbMesh1 defaultReconParams = none ∧
      bsCbMesh2 defaultReconParams = some Artifact.bsCbMesh) := by
  have h := C6_merge_guide_exclusive defaultReconParams allOk 0 emptyFS
  exact ⟨by decide,
    (h.1 (Event.joinCorticalSurfaces none true) (by decide)).1 none true rfl,
    rfl, (h.2.1 rfl).2 rfl⟩

/-! ## C10: configured-but-missing optional inputs -/

/-- C10: each optional input is dropped independently of the other: whenever
the configured `t1w_image` file does not exist on disk, every white-surface
invocation of the session receives a null t1w image; whenever the configured
`corpus_callosum_mask` file does not exist on disk, every
hemisphere-extraction invocation receives a null corpus-callosum mask; and
(with the external operations themselves succeeding) the session always
completes, so a missing optional input never makes it fail. -/
theorem C10_missing_optional_inputs :
    ∀ (p : ReconParams) (ork : Oracle) (debug : Nat) (s0 : FS),
      (s0 Artifact.t1wImage = false →
        ∀ e ∈ runTrace p ork debug s0,
          ∀ t g c, e = Event.reconWhiteSurface t g c → t = none) ∧
      (s0 Artifact.corpusCallosumMask = false →
        ∀ e ∈ runTrace p ork debug s0,
          ∀ hem c, e = Event.reconCorticalSurface hem c → c = none) ∧
      runOk (recon_neonatal_cortex p allOk debug s0) = true := by
  intro p ork debug s0
  refine ⟨?_, ?_, recon_allOk_runOk p debug s0⟩
  · intro ht1w e he t g c he2
    subst he2
    obtain ⟨sx, hchk⟩ := traceAll_mem _ _ (recon_chkAll p ork debug s0) _ he
    unfold chkAll at hchk
    simp only [Bool.and_eq_true] at hchk
    have hargs := hchk.2
    simp only [eventArgsOk, Bool.and_eq_true, decide_eq_true_eq] at hargs
    rw [hargs.1]
    simp [t1wOption, ht1w]
  · intro hcc e he hem c he2
    subst he2
    obtain ⟨sx, hchk⟩ := traceAll_mem _ _ (recon_chkAll p ork debug s0) _ he
    unfold chkAll at hchk
    simp only [Bool.and_eq_true] at hchk
    have hargs := hchk.2
    simp only [eventArgsOk, decide_eq_true_eq] at hargs
    rw [hargs]
    simp [ccOption, hcc]

/-- Witness for C10, with each optional input missing independently: a
session directory holding only the corpus-callosum mask (t1w missing) and
one holding only the t1w image (mask missing). -/
theorem C10_witness :
    onlyCcFS Artifact.t1wImage = false ∧
    onlyT1wFS Artifact.corpusCallosumMask = false ∧
    (Event.reconWhiteSurface none (some Artifact.bsCbMesh) true ∈
      runTrace defaultReconParams allOk 0 onlyCcFS) ∧
    (none : Option Artifact) = none ∧
    (Event.reconCorticalSurface Hemisphere.right none ∈
      runTrace defaultReconParams allOk 0 onlyT1wFS) ∧
    (none : Option Artifact) = none ∧
    runOk (recon_neonatal_cortex defaultReconParams allOk 0 emptyFS) = true := by
  have h1 := C10_missing_optional_inputs defaultReconParams allOk 0 onlyCcFS
  have h2 := C10_missing_optional_inputs defaultReconParams allOk 0 onlyT1wFS
  have h3 := C10_missing_optional_inputs defaultReconParams allOk 0 emptyFS
  exact ⟨rfl, rfl, by decide,
    h1.1 rfl _ (by decide) none (some Artifact.bsCbMesh) true rfl,
    by decide,
    h2.2.1 rfl _ (by decide) Hemisphere.right none rfl,
    h3.2.2⟩

/-! ## C8: session token parsing -/

/-- C8: every session token is split at the last hyphen into
`(subject_id, session_id)`: a token of shape `p ++ "-" ++ q` with `q`
non-empty and hyphen-free parses to `(p, q)`, a token without a hyphen
parses to the whole token with session id `"0"`; in particular `"A-B-1"`
gives `("A-B", "1")` and `"X"` gives `("X", "0")`. -/
theorem C8_session_token_parsing :
    (∀ p q : List Char, '-' ∉ q → q ≠ [] →
        parseSessionToken (p ++ '-' :: q) = (p, q)) ∧
    (∀ s : List Char, '-' ∉ s → parseSessionToken s = (s, ['0'])) ∧
    parseSessionToken "A-B-1".toList = ("A-B".toList, "1".toList) ∧
    parseSessionToken "X".toList = ("X".toList, "0".toList) := by
  refine ⟨?_, ?_, by decide, by decide⟩
  · intro p q hq hne
    have hrev : (p ++ '-' :: q).reverse = q.reverse ++ '-' :: p.reverse := by
      simp [List.reverse_append]
    have hall : ∀ c ∈ q.reverse, (decide (c ≠ '-')) = true := by
      intro c hc
      simp only [List.mem_reverse] at hc
      simp only [decide_eq_true_eq]
      exact fun h => hq (h ▸ hc)
    have h1 := takeWhile_append_stop (fun c => decide (c ≠ '-'))
      q.reverse '-' p.reverse hall (by decide)
    have hqne : q.reverse.isEmpty = false := by
      cases q with
      | nil => exact absurd rfl hne
      | cons a t => simp
    simp only [parseSessionToken, hrev, h1.1, h1.2, hqne]
    simp
  · intro s hs
    have hall : ∀ c ∈ s.reverse, (decide (c ≠ '-')) = true := by
      intro c hc
      simp only [List.mem_reverse] at hc
      simp only [decide_eq_true_eq]
      exact fun h => hs (h ▸ hc)
    have hdrop := dropWhile_of_all (fun c => decide (c ≠ '-')) s.reverse hall
    simp only [parseSessionToken, hdrop]

/-- Witness for C8 at the concrete token `"A-B" ++ "-" ++ "1"`. -/
theorem C8_witness :
    ('-' ∉ ['1']) ∧ (['1'] ≠ ([] : List Char)) ∧
      parseSessionToken (['A', '-', 'B'] ++ '-' :: ['1']) = (['A', '-', 'B'], ['1']) :=
  ⟨by decide, by decide,
    C8_session_token_parsing.1 ['A', '-', 'B'] ['1'] (by decide) (by decide)⟩

/-! ## C9: sbatch submission contract -/

/-- C9 (code bug): under Python 3 - the interpreter this script runs itself
with (`exec python3` in the job script it emits, and line 269 already
UTF-8-encodes the stdin payload for it) - `communicate()` returns `bytes`,
so line 272 applies the `str` pattern `'Submitted batch job ([0-9]+)'` to a
`bytes` value and raises `TypeError` before any parsing.  On every
zero-exit submission `sbatch` therefore raises instead of returning the job
id or the raw acknowledgement that lines 272-274 were written to produce;
parsing the same acknowledgement as text would have yielded the job id
12345.  The non-zero-exit path still raises carrying the scheduler's
stderr, as the claim states. -/
theorem C9_py3_ack_type_error :
    sbatch_result 0 (PyText.bytes "Submitted batch job 12345".toList) [] =
      Except.error SbatchRaise.typeError ∧
    parseJobAck "Submitted batch job 12345".toList = Sum.inl 12345 ∧
    sbatch_result 3 (PyText.bytes "Submitted batch job 12345".toList) ['b'] =
      Except.error (SbatchRaise.schedulerError ['b']) :=
  ⟨rfl, by decide, rfl⟩

/-! ## C5: per-session failure isolation in main -/

theorem runSessions_spec (p : ReconParams) (debug : Nat) :
    ∀ (ss : List (Oracle × FS)) (acc : Nat × Nat),
      ss.foldl (fun acc so =>
          match recon_neonatal_cortex p so.1 debug so.2 with
          | Except.ok _ => (acc.1 + 1, acc.2)
          | Except.error _ => (acc.1 + 1, acc.2 + 1)) acc
        = (acc.1 + ss.length,
           acc.2 + ss.countP
             (fun so => !(runOk (recon_neonatal_cortex p so.1 debug so.2))))
  | [], acc => by simp
  | so :: t, acc => by
    rcases h : recon_neonatal_cortex p so.1 debug so.2 with r | r <;>
      simp only [List.foldl_cons, h, runSessions_spec p debug t, List.countP_cons,
        runOk, List.length_cons, Prod.mk.injEq] <;>
      refine ⟨by omega, ?_⟩ <;> simp <;> omega

theorem runSessions_eq (p : ReconParams) (debug : Nat) (ss : List (Oracle × FS)) :
    runSessions p debug ss
      = (ss.length,
         ss.countP (fun so => !(runOk (recon_neonatal_cortex p so.1 debug so.2)))) := by
  unfold runSessions
  rw [runSessions_spec]
  simp

/-- C5: every session in the list is processed (an exception in one session
is caught and the loop continues); a raising session adds exactly one to the
failure counter; the exit status is non-zero iff the counter is positive;
concretely, with three sessions of which only the second raises, all three
are processed, the counter is 1 and the exit status is non-zero. -/
theorem C5_failure_isolation :
    (∀ (p : ReconParams) (debug : Nat) (ss : List (Oracle × FS)),
        (runSessions p debug ss).1 = ss.length) ∧
    (∀ (p : ReconParams) (debug : Nat) (pre post : List (Oracle × FS))
        (so : Oracle × FS),
        runOk (recon_neonatal_cortex p so.1 debug so.2) = false →
        (runSessions p debug (pre ++ so :: post)).2 =
          (runSessions p debug pre).2 + 1 + (runSessions p debug post).2) ∧
    (∀ failed : Nat, exitStatus failed ≠ 0 ↔ 0 < failed) ∧
    (runSessions defaultReconParams 0
        [(allOk, emptyFS), (failJoinOracle, emptyFS), (allOk, emptyFS)] = (3, 1) ∧
      exitStatus 1 ≠ 0) := by
  refine ⟨?_, ?_, ?_, by decide, by decide⟩
  · intro p debug ss
    rw [runSessions_eq]
  · intro p debug pre post so h
    rw [runSessions_eq, runSessions_eq, runSessions_eq]
    simp only [List.countP_append, List.countP_cons, h]
    simp
    omega
  · intro failed
    unfold exitStatus
    rcases failed with _ | f <;> simp

/-- Witness for C5: second of three concrete sessions raises at the join. -/
theorem C5_witness :
    runOk (recon_neonatal_cortex defaultReconParams failJoinOracle 0 emptyFS) = false ∧
    (runSessions defaultReconParams 0
        ([(allOk, emptyFS)] ++ (failJoinOracle, emptyFS) :: [(allOk, emptyFS)])).2 =
      (runSessions defaultReconParams 0 [(allOk, emptyFS)]).2 + 1 +
        (runSessions defaultReconParams 0 [(allOk, emptyFS)]).2 ∧
    (exitStatus 1 ≠ 0 ↔ 0 < 1) :=
  ⟨by decide,
    C5_failure_isolation.2.1 defaultReconParams 0 [(allOk, emptyFS)] [(allOk, emptyFS)]
      (failJoinOracle, emptyFS) (by decide),
    C5_failure_isolation.2.2.1 1⟩

/-! ## C1: the submitted job re-runs the identical stage graph -/

theorem scriptRoundTrip (a : CLIArgs) :
    mainReconParams (normalizeArgs (parseScriptFlags (scriptFlagList (normalizeArgs a))))
      = mainReconParams (normalizeArgs a) := by
  rcases a with ⟨b, w, pi, po, c, ch, f⟩
  cases b <;> cases w <;> cases pi <;> cases po <;> cases c <;> cases ch <;> cases f <;> rfl

/-- C1: for any command-line flags (as normalized by `main`) and any session,
the job script submitted by `sbatch` re-invokes the pipeline for exactly that
one session, and the keyword arguments the child's local path hands to
`recon_neonatal_cortex` (force, cut, check and the surface-selection
switches) equal those of the parent's local path, so both execute the same
stage graph on every filesystem state. -/
theorem C1_batch_matches_local :
    ∀ (a : CLIArgs) (sess : List Char),
      (jobScript (normalizeArgs a) sess).sessions = [sess] ∧
      mainReconParams (normalizeArgs
          (parseScriptFlags (jobScript (normalizeArgs a) sess).flags))
        = mainReconParams (normalizeArgs a) ∧
      ∀ (ork : Oracle) (debug : Nat) (s0 : FS),
        recon_neonatal_cortex
            (mainReconParams (normalizeArgs
              (parseScriptFlags (jobScript (normalizeArgs a) sess).flags)))
            ork debug s0
          = recon_neonatal_cortex (mainReconParams (normalizeArgs a)) ork debug s0 := by
  intro a sess
  refine ⟨rfl, scriptRoundTrip a, ?_⟩
  intro ork debug s0
  rw [show (jobScript (normalizeArgs a) sess).flags = scriptFlagList (normalizeArgs a)
      from rfl,
    scriptRoundTrip a]

/-! ## C2: the command-line force flag never reaches the executor -/

/-- C2 (code bug): `main` does not forward `args.force` to
`recon_neonatal_cortex` (lines 376-382 pass no `force=` keyword), so with
`--force` on the command line and every output artifact already on disk the
local path invokes no external stage operation at all, contradicting the
documented behavior of `--force` (help text: overwrite existing output
files) and the spec's monotonic-force property. -/
theorem C2_force_flag_inert :
    (normalizeArgs forceCLI).force = true ∧
    (mainReconParams (normalizeArgs forceCLI)).force = false ∧
    recon_neonatal_cortex (mainReconParams (normalizeArgs forceCLI)) allOk 0 fullFS =
      Except.ok ([], fullFS) ∧
    runTrace (mainReconParams (normalizeArgs forceCLI)) allOk 0 fullFS = [] :=
  ⟨rfl, rfl, rfl, rfl⟩

end ReconNeonatal
